import Mathlib

/-!
# cudax `vector` over a memory resource

A shallow embedding of `cuda::experimental::vector`
(`cudax/include/cuda/experimental/__container/vector.h`), of the algorithms
it calls, among them `copy` with its generic loop and its pointer overload
(`libcudacxx/include/cuda/std/__algorithm/copy.h`), of its iterators and
their execution spaces
(`cudax/include/cuda/experimental/__container/heterogeneous_iterator.h`), and
of `repeat_view` and its iterator
(`libcudacxx/include/cuda/std/__ranges/repeat_view.h`).

Storage is a flat memory of element-sized cells addressed by natural
numbers; a pointer or iterator is the address it holds.  `size_t` values are
natural numbers: sizes and addresses of storage that exists stay far below
`2^64`, and the differences the operations form (`count - size`,
`last - first`) are taken with the larger operand first.  An operation that
asks the memory resource for storage receives the answer of the resource as
the argument `reply`.
-/

namespace cudax

/-! ## Cells and memory -/

/-- One element-sized cell of storage: raw storage holding no object, a live
object whose value is indeterminate, or a live object with a value. -/
inductive slot (T : Type) where
  | raw
  | indeterminate
  | object (x : T)
deriving DecidableEq, Repr

/-- The value read from a cell; `none` when the cell has no determinate value. -/
def slot.value {T : Type} : slot T → Option T
  | .object x => some x
  | _ => none

/-- Whether a cell holds a live object. -/
def slot.live {T : Type} : slot T → Bool
  | .raw => false
  | _ => true

/-- The cell produced by copying (or moving) from a source cell, `*dst = *src`
or `::new (dst) T(*src)`: a live object carrying the source value. -/
def slot.copied {T : Type} : slot T → slot T
  | .object x => .object x
  | _ => .indeterminate

/-- Memory: the cell found at each address. -/
abbrev memory (T : Type) := Nat → slot T

/-- Memory in which no object lives. -/
def memory.empty {T : Type} : memory T := fun _ => slot.raw

/-- Write one cell. -/
def memory.store {T : Type} (m : memory T) (p : Nat) (s : slot T) : memory T :=
  fun q => if q = p then s else m q

/-- Write the same cell content to the `n` addresses starting at `first`,
in increasing address order. -/
def memory.store_n {T : Type} : Nat → Nat → slot T → memory T → memory T
  | _, 0, _, m => m
  | first, n + 1, s, m => memory.store_n (first + 1) n s (m.store first s)

/-- Two address ranges `[a, a + n)` and `[b, b + k)` do not overlap. -/
def separate (a n b k : Nat) : Prop := a + n ≤ b ∨ b + k ≤ a

instance (a n b k : Nat) : Decidable (separate a n b k) :=
  inferInstanceAs (Decidable (a + n ≤ b ∨ b + k ≤ a))

/-! ## Element type -/

/-- What the container needs to know about its element type `_Tp`: the trait
`is_trivially_destructible`, the value left by default-initialisation
(`::new (p) T;`, `none` when that leaves the value indeterminate, as for
scalar types) and the value-initialised object `T{}`. -/
class element (T : Type) where
  is_trivially_destructible : Bool
  default_initialized : Option T
  value_initialized : T

/-- The element type `int`. -/
instance : element Int where
  is_trivially_destructible := true
  default_initialized := none
  value_initialized := 0

/-- The cell left by default-initialising an object of type `T`. -/
def element.default_slot (T : Type) [element T] : slot T :=
  match element.default_initialized (T := T) with
  | some x => slot.object x
  | none => slot.indeterminate

/-! ## Algorithms -/

/-- The generic loop of `__copy` (`copy.h`):
`for (; first != last; ++first, ++result) *result = *first;`, run for the
`n = last - first` iterations it makes when `first ≤ last`.  Returns the final
`result` and the memory. -/
def __copy_loop {T : Type} : Nat → Nat → Nat → memory T → Nat × memory T
  | 0, _, result, m => (result, m)
  | n + 1, first, result, m =>
      __copy_loop n (first + 1) (result + 1) (m.store result (m first).copied)

/-- The generic `__copy` of `copy.h`: returns `{last, result}` and the memory. -/
def __copy {T : Type} (first last result : Nat) (m : memory T) : (Nat × Nat) × memory T :=
  let r := __copy_loop (last - first) first result m
  ((last, r.1), r.2)

/-- The algorithm `copy` of `copy.h`: the second component of `__copy`
(`__unwrap_iter` leaves the address an iterator holds as it is), with the
generic overload of `__copy`.  For pointers to trivially copy-assignable
elements the source selects the pointer overload, `__copy.pointer_overload`
below; the two differ only when the destination starts inside the source
range. -/
def copy {T : Type} (first last result : Nat) (m : memory T) : Nat × memory T :=
  let r := __copy first last result m
  (r.1.2, r.2)

/-- Modelled from the spec: `uninitialized_copy` is not among the sources;
it copy-constructs each element of `[first, last)` into the raw storage at
`result` ("copy-constructs each live element") and returns the end of the
destination. -/
def uninitialized_copy {T : Type} (first last result : Nat) (m : memory T) : Nat × memory T :=
  __copy_loop (last - first) first result m

/-- Modelled from the spec: `uninitialized_move` is not among the sources;
it move-constructs each element of `[first, last)` into the raw storage at
`result` ("relocate (move-construct) the previously-live elements") and
returns the end of the destination. -/
def uninitialized_move {T : Type} (first last result : Nat) (m : memory T) : Nat × memory T :=
  __copy_loop (last - first) first result m

/-- Modelled from the spec: `uninitialized_fill_n` is not among the sources;
it copy-constructs `n` elements from `value` starting at `first`
("copy-constructing all elements from the value"). -/
def uninitialized_fill_n {T : Type} (first n : Nat) (value : T) (m : memory T) : memory T :=
  m.store_n first n (slot.object value)

/-- Modelled from the spec: `uninitialized_default_construct_n` is not among
the sources and the spec names no algorithm; the model follows the contract of
the call the constructor makes, which default-initialises (`::new (p) T;`) `n`
elements starting at `first`. -/
def uninitialized_default_construct_n {T : Type} [element T] (first n : Nat) (m : memory T) :
    memory T :=
  m.store_n first n (element.default_slot T)

/-- Modelled from the spec: `__destroy` is not among the sources; it ends the
lifetime of each element of `[first, last)` ("destroy elements"), leaving raw
storage. -/
def __destroy {T : Type} (first last : Nat) (m : memory T) : memory T :=
  m.store_n first (last - first) slot.raw

/-! ## Memory resource and raw buffer -/

/-- Modelled from the spec: the memory resource is an external collaborator
held by reference; "equality is resource identity". -/
structure resource_ref where
  id : Nat
deriving DecidableEq, Repr

/-- Modelled from the spec: the allocation error a memory resource signals
"when it cannot satisfy a request". -/
structure bad_alloc where
  code : Nat
deriving DecidableEq, Repr

/-- Modelled from the spec: `uninitialized_buffer.h` is not among the sources.
A raw buffer "owns exactly one allocation": the borrowed resource, its extent
in elements and its base address. -/
structure uninitialized_buffer where
  resource : resource_ref
  size : Nat
  data : Nat
deriving DecidableEq, Repr

/-- Modelled from the spec: `construct(resource, count)` allocates storage
for exactly `count` elements and "fails with an allocation error if the
resource cannot satisfy the request".  `reply` is what `allocate` of the
resource answers: a base address or the error.  The storage obtained is raw. -/
def uninitialized_buffer.construct {T : Type} (mr : resource_ref) (count : Nat)
    (reply : Except bad_alloc Nat) (m : memory T) :
    Except bad_alloc (uninitialized_buffer × memory T) :=
  match reply with
  | .ok p => .ok ({ resource := mr, size := count, data := p }, m.store_n p count slot.raw)
  | .error e => .error e

/-- Modelled from the spec: `begin()` "returns the base address". -/
def uninitialized_buffer.begin (b : uninitialized_buffer) : Nat := b.data

/-- Modelled from the spec: the state a buffer is left in when ownership has
been moved out of it, "an empty/default buffer". -/
def uninitialized_buffer.moved_from (b : uninitialized_buffer) : uninitialized_buffer :=
  { resource := b.resource, size := 0, data := 0 }

/-- Modelled from the spec: releasing the allocation back to the resource;
no object lives in released storage. -/
def uninitialized_buffer.release {T : Type} (b : uninitialized_buffer) (m : memory T) :
    memory T :=
  m.store_n b.data b.size slot.raw

/-- Modelled from the spec: move construction "transfers ownership, leaves
source as an empty/default buffer".  Returns the new buffer and the source. -/
def uninitialized_buffer.move_construct (other : uninitialized_buffer) :
    uninitialized_buffer × uninitialized_buffer :=
  (other, other.moved_from)

/-- Modelled from the spec: move assignment releases the allocation held,
"transfers ownership, leaves source as an empty/default buffer".  Returns the
assigned buffer, the source and the memory. -/
def uninitialized_buffer.move_assign {T : Type} (self other : uninitialized_buffer)
    (m : memory T) : uninitialized_buffer × uninitialized_buffer × memory T :=
  (other, other.moved_from, self.release m)

/-- Modelled from the spec: `swap(other)` "exchanges ownership in constant
time". -/
def uninitialized_buffer.swap (self other : uninitialized_buffer) :
    uninitialized_buffer × uninitialized_buffer :=
  (other, self)

/-! ## Outcomes -/

/-- How a member function call ends: it returns, leaving the state `s`; an
exception leaves it, the state being `s` at that point; or an exception
reaches the boundary of a `noexcept` function and the program terminates. -/
inductive outcome (σ : Type) where
  | returned (s : σ)
  | threw (e : bad_alloc) (s : σ)
  | terminated

/-- The state a call returned with, if it returned. -/
def outcome.state? {σ : Type} : outcome σ → Option σ
  | .returned s => some s
  | _ => none

/-! ## The vector -/

/-- The class `vector`: the raw buffer it owns and its logical size. -/
structure vector where
  __buf_ : uninitialized_buffer
  __size_ : Nat
deriving DecidableEq, Repr

/-- The member `begin()`: `__buf_.data()`. -/
def vector.begin (self : vector) : Nat := self.__buf_.data

/-- The member `end()`: `__buf_.data() + __size_`. -/
def vector.end (self : vector) : Nat := self.__buf_.data + self.__size_

/-- The member `size()`. -/
def vector.size (self : vector) : Nat := self.__size_

/-- The member `empty()`. -/
def vector.empty (self : vector) : Bool := self.__size_ == 0

/-- The member `capacity()`: `__buf_.size()`. -/
def vector.capacity (self : vector) : Nat := self.__buf_.size

/-- The member `resource()`.  The source returns `__mr_`, a name the class
does not declare; the only resource a vector holds is that of its buffer. -/
def vector.resource (self : vector) : resource_ref := self.__buf_.resource

/-- The member `operator[]`: `*(__buf_.data() + n)`, read as a value. -/
def vector.get {T : Type} (self : vector) (m : memory T) (n : Nat) : Option T :=
  (m (self.__buf_.data + n)).value

/-- The constructor `vector(mr)`. -/
def vector.construct {T : Type} (mr : resource_ref) (reply : Except bad_alloc Nat)
    (m : memory T) : Except bad_alloc (vector × memory T) :=
  match uninitialized_buffer.construct mr 0 reply m with
  | .error e => .error e
  | .ok (buf, m1) => .ok ({ __buf_ := buf, __size_ := 0 }, m1)

/-- The constructor `vector(mr, size)`. -/
def vector.construct_n {T : Type} [element T] (mr : resource_ref) (size : Nat)
    (reply : Except bad_alloc Nat) (m : memory T) : Except bad_alloc (vector × memory T) :=
  match uninitialized_buffer.construct mr size reply m with
  | .error e => .error e
  | .ok (buf, m1) => .ok ({ __buf_ := buf, __size_ := size },
      uninitialized_default_construct_n buf.begin size m1)

/-- The constructor `vector(mr, size, value)`. -/
def vector.construct_fill {T : Type} (mr : resource_ref) (size : Nat) (value : T)
    (reply : Except bad_alloc Nat) (m : memory T) : Except bad_alloc (vector × memory T) :=
  match uninitialized_buffer.construct mr size reply m with
  | .error e => .error e
  | .ok (buf, m1) => .ok ({ __buf_ := buf, __size_ := size },
      uninitialized_fill_n buf.begin size value m1)

/-- The copy constructor `vector(const vector& other)`. -/
def vector.copy_construct {T : Type} (other : vector) (reply : Except bad_alloc Nat)
    (m : memory T) : Except bad_alloc (vector × memory T) :=
  match uninitialized_buffer.construct other.resource other.size reply m with
  | .error e => .error e
  | .ok (buf, m1) =>
      let self : vector := { __buf_ := buf, __size_ := other.size }
      .ok (self, (uninitialized_copy other.begin other.end self.begin m1).2)

/-- The move constructor `vector(vector&& other)`.  Its member initialiser is
`__buf_(move(__buf_))`: the buffer is move-constructed from itself, that is
from the not yet initialised storage of the member, whose content is the
argument `storage`.  Source and destination of that move are one object, which
the move leaves in the moved-from state.  Returns the new vector and `other`. -/
def vector.move_construct (other : vector) (storage : uninitialized_buffer) :
    vector × vector :=
  let buf := (uninitialized_buffer.move_construct storage).2
  ({ __buf_ := buf, __size_ := other.__size_ }, { other with __size_ := 0 })

/-- The constructor `vector(mr, size, uninitialized_construction)`.  Its
assertion `size <= __buf.size()` is evaluated on the member `__buf_`. -/
def vector.construct_uninitialized {T : Type} (mr : resource_ref) (size : Nat)
    (reply : Except bad_alloc Nat) (m : memory T) : Except bad_alloc (vector × memory T) :=
  match uninitialized_buffer.construct mr size reply m with
  | .error e => .error e
  | .ok (buf, m1) => .ok ({ __buf_ := buf, __size_ := size }, m1)

/-- The copy assignment `operator=(const vector& other)`.  Neither path of the
source assigns `__size_`.  On the reallocating path the new buffer is obtained
first, so an allocation error leaves with `*this` and the memory as they
were.  Returns `*this` and the memory. -/
def vector.copy_assign {T : Type} (self other : vector) (reply : Except bad_alloc Nat)
    (m : memory T) : outcome (vector × memory T) :=
  if self.resource = other.resource ∧ self.__buf_.size = other.__buf_.size then
    if self.__size_ ≥ other.__size_ then
      let res := copy other.begin other.end self.begin m
      .returned (self, __destroy res.1 self.end res.2)
    else
      let res := copy other.begin (other.begin + self.__size_) self.begin m
      .returned (self, (uninitialized_copy (other.begin + self.__size_) other.end res.1 res.2).2)
  else
    match uninitialized_buffer.construct other.resource other.__size_ reply m with
    | .error e => .threw e (self, m)
    | .ok (new_buf, m1) =>
        let m2 := (uninitialized_copy other.begin other.end new_buf.begin m1).2
        let m3 := __destroy self.begin self.end m2
        let r := self.__buf_.move_assign new_buf m3
        .returned ({ self with __buf_ := r.1 }, r.2.2)

/-- The move assignment `operator=(vector&& other)`.  The source does not
assign `__other.__size_`.  Returns `*this`, `other` and the memory. -/
def vector.move_assign {T : Type} (self other : vector) (m : memory T) :
    vector × vector × memory T :=
  let m1 := __destroy self.begin self.end m
  let r := self.__buf_.move_assign other.__buf_ m1
  ({ __buf_ := r.1, __size_ := other.__size_ }, { other with __buf_ := r.2.1 }, r.2.2)

/-- The member `clear()`. -/
def vector.clear {T : Type} [element T] (self : vector) (m : memory T) : vector × memory T :=
  let m1 := if !element.is_trivially_destructible T then __destroy self.begin self.end m else m
  ({ self with __size_ := 0 }, m1)

/-- The member `resize(count, value)`, a `noexcept` function: an allocation
error raised inside cannot leave it. -/
def vector.resize {T : Type} [element T] (self : vector) (count : Nat) (value : T)
    (reply : Except bad_alloc Nat) (m : memory T) : outcome (vector × memory T) :=
  if count < self.__size_ then
    let m1 :=
      if !element.is_trivially_destructible T then __destroy (self.begin + count) self.end m
      else m
    .returned ({ self with __size_ := count }, m1)
  else if count < self.__buf_.size then
    .returned ({ self with __size_ := count },
      uninitialized_fill_n self.end (count - self.__size_) value m)
  else
    match uninitialized_buffer.construct self.__buf_.resource count reply m with
    | .error _ => .terminated
    | .ok (new_buf, m1) =>
        let m2 := uninitialized_fill_n (new_buf.begin + self.__size_) (count - self.__size_) value m1
        let m3 := (uninitialized_move self.begin self.end new_buf.begin m2).2
        let r := self.__buf_.move_assign new_buf m3
        .returned ({ __buf_ := r.1, __size_ := count }, r.2.2)

/-- The member `swap(other)`.  The source names the second size
`__other._size`; the member is `__size_`.  Returns `*this` and `other`. -/
def vector.swap (self other : vector) : vector × vector :=
  let r := self.__buf_.swap other.__buf_
  ({ __buf_ := r.1, __size_ := other.__size_ }, { __buf_ := r.2, __size_ := self.__size_ })

/-! ## Sample states -/

/-- A vector of `int` holding two elements in a three-element buffer at
address 100, obtained from the resource with identity 0. -/
def demo_v : vector :=
  { __buf_ := { resource := { id := 0 }, size := 3, data := 100 }, __size_ := 2 }

/-- A vector of `int` holding one element in a one-element buffer at
address 200, obtained from the same resource. -/
def demo_w : vector :=
  { __buf_ := { resource := { id := 0 }, size := 1, data := 200 }, __size_ := 1 }

/-- Memory in which the two elements of `demo_v` are 7 and 7 and the element
of `demo_w` is 9. -/
def demo_m : memory Int :=
  uninitialized_fill_n 200 1 9 (uninitialized_fill_n 100 2 7 memory.empty)

/-! ## Live cells of a vector -/

/-- The cells of the held buffer as the data model describes them: the
elements at indices `[0, size())` are constructed objects and those at
`[size(), capacity())` are uninitialized storage. -/
def vector.cells_as_specified {T : Type} (v : vector) (m : memory T) : Prop :=
  (∀ i, i < v.size → (m (v.begin + i)).live = true) ∧
  (∀ i, v.size ≤ i → i < v.capacity → (m (v.begin + i)).live = false)

/-- The cells of the held buffer as the operations that destroy under the
guard `!is_trivially_destructible` leave them: the size is within the
capacity, the elements at `[0, size())` are constructed objects, and those at
`[size(), capacity())` are uninitialized storage when the element type is not
trivially destructible. -/
def vector.cells_by_design {T : Type} [element T] (v : vector) (m : memory T) : Prop :=
  v.size ≤ v.capacity ∧
  (∀ i, i < v.size → (m (v.begin + i)).live = true) ∧
  (element.is_trivially_destructible T = false →
    ∀ i, v.size ≤ i → i < v.capacity → (m (v.begin + i)).live = false)

/-! ## Execution spaces (`heterogeneous_iterator.h`) -/

/-- Modelled from the spec: a property tag of a memory resource
(`properties.h` is not among the sources): host accessibility, device
accessibility, or any other property. -/
inductive property where
  | host_accessible
  | device_accessible
  | other (k : Nat)
deriving DecidableEq, Repr

/-- Modelled from the spec: the concept `_One_of<T, Ts...>` (`_One_of.h` is not
among the sources) holds when `T` is one of `Ts...`. -/
def _One_of (t : property) (ts : List property) : Bool := decide (t ∈ ts)

/-- The variable template `__is_host_accessible`.  The source passes the pack
under the name `_OtherProperties`; the pack declared is `_Properties`. -/
def __is_host_accessible (ps : List property) : Bool :=
  _One_of property.host_accessible ps

/-- The variable template `__is_device_accessible`.  The source passes the pack
under the name `_OtherProperties`; the pack declared is `_Properties`. -/
def __is_device_accessible (ps : List property) : Bool :=
  _One_of property.device_accessible ps

/-- The variable template `__is_host_device_accessible`. -/
def __is_host_device_accessible (ps : List property) : Bool :=
  __is_host_accessible ps && __is_device_accessible ps

/-- The enumeration `_ExecutionSpace`. -/
inductive _ExecutionSpace where
  | __host
  | __device
  | __host_device
deriving DecidableEq, Repr

/-- The variable template `__select_execution_space`. -/
def __select_execution_space (ps : List property) : _ExecutionSpace :=
  if __is_host_device_accessible ps then _ExecutionSpace.__host_device
  else if __is_device_accessible ps then _ExecutionSpace.__device
  else _ExecutionSpace.__host

/-- Modelled from the spec: the markers `_CCCL_HOST`, `_CCCL_DEVICE` and
`_CCCL_HOST_DEVICE` (macros not among the sources) restrict a function to
host-side code, to device-side code, or to neither. -/
inductive target where
  | _CCCL_HOST
  | _CCCL_DEVICE
  | _CCCL_HOST_DEVICE
deriving DecidableEq, Repr

/-- The side of the build in which a piece of code is compiled. -/
inductive side where
  | host
  | device
deriving DecidableEq, Repr

/-- Modelled from the spec: whether code of a side may use a function carrying
such a marker; a use from the other side "is a build-time failure". -/
def target.allows : target → side → Bool
  | ._CCCL_HOST, .host => true
  | ._CCCL_HOST, .device => false
  | ._CCCL_DEVICE, .host => false
  | ._CCCL_DEVICE, .device => true
  | ._CCCL_HOST_DEVICE, _ => true

/-- The accessors of `__heterogeneous_iterator_access`: `operator*`,
`operator->` and `operator[]`. -/
inductive accessor where
  | dereference
  | member_access
  | subscript
deriving DecidableEq, Repr

/-- The marker each of the three specialisations of
`__heterogeneous_iterator_access` puts on each of its accessors. -/
def __heterogeneous_iterator_access.target : _ExecutionSpace → accessor → target
  | .__host, .dereference => target._CCCL_HOST
  | .__host, .member_access => target._CCCL_HOST
  | .__host, .subscript => target._CCCL_HOST
  | .__device, .dereference => target._CCCL_DEVICE
  | .__device, .member_access => target._CCCL_DEVICE
  | .__device, .subscript => target._CCCL_DEVICE
  | .__host_device, .dereference => target._CCCL_HOST_DEVICE
  | .__host_device, .member_access => target._CCCL_HOST_DEVICE
  | .__host_device, .subscript => target._CCCL_HOST_DEVICE

/-- Whether an accessor of a `heterogeneous_iterator` of the given execution
space is available to code of the given side. -/
def heterogeneous_iterator.available (space : _ExecutionSpace) (a : accessor) (s : side) :
    Bool :=
  (__heterogeneous_iterator_access.target space a).allows s

/-- The execution space of `vector<_Tp, _Properties...>::iterator` and
`const_iterator`: `__select_execution_space<_Properties...>`. -/
def vector.iterator_space (ps : List property) : _ExecutionSpace :=
  __select_execution_space ps

/-- The properties of `device_vector<_Tp>`, which is
`vector<_Tp, device_accessible>`. -/
def device_vector.properties : List property := [property.device_accessible]

instance {T : Type} [element T] (v : vector) (m : memory T) :
    Decidable (v.cells_by_design m) :=
  inferInstanceAs (Decidable (v.size ≤ v.capacity ∧
    (∀ i, i < v.size → (m (v.begin + i)).live = true) ∧
    (element.is_trivially_destructible T = false →
      ∀ i, v.size ≤ i → i < v.capacity → (m (v.begin + i)).live = false)))

/-- An element type of class type with a user-provided destructor and a
default constructor; an object is identified by the number it carries. -/
structure tracked where
  id : Nat
deriving DecidableEq, Repr

/-- The element type `tracked`: not trivially destructible, and its default
constructor gives the object 0. -/
instance : element tracked where
  is_trivially_destructible := false
  default_initialized := some ⟨0⟩
  value_initialized := ⟨0⟩

/-- Memory in which the two elements of `demo_v` are objects of type `tracked`
and the third cell of its buffer is raw. -/
def demo_t : memory tracked :=
  uninitialized_fill_n 100 2 ⟨7⟩ memory.empty

/-! ## The iterator (`heterogeneous_iterator.h`) -/

/-- The class template `__heterogeneous_iterator_access<_Tp, _IsConst, _Space>`:
each of its three specialisations holds one member, `_Tp* __ptr_ = nullptr`.
A pointer is the address it holds, an integer; the null pointer is the
address 0. -/
structure __heterogeneous_iterator_access (T : Type) (is_const : Bool)
    (space : _ExecutionSpace) where
  __ptr_ : Int := 0
deriving DecidableEq, Repr

/-- The class template `heterogeneous_iterator<_Tp, _IsConst, _Space>`, derived
from `__heterogeneous_iterator_access<_Tp, _IsConst, _Space>`. -/
structure heterogeneous_iterator (T : Type) (is_const : Bool) (space : _ExecutionSpace)
    extends __heterogeneous_iterator_access T is_const space
deriving DecidableEq, Repr

/-- The defaulted constructor `heterogeneous_iterator() = default`: the member
takes its default initialiser. -/
def heterogeneous_iterator.construct_default {T : Type} {is_const : Bool}
    {space : _ExecutionSpace} : heterogeneous_iterator T is_const space :=
  {}

/-- The constructor `heterogeneous_iterator(_Tp* __ptr)`. -/
def heterogeneous_iterator.construct {T : Type} {is_const : Bool} {space : _ExecutionSpace}
    (ptr : Int) : heterogeneous_iterator T is_const space :=
  { __ptr_ := ptr }

/-- The friend `operator==`: `__lhs.__ptr_ == __rhs.__ptr_`. -/
def heterogeneous_iterator.operator_eq {T : Type} {is_const : Bool} {space : _ExecutionSpace}
    (lhs rhs : heterogeneous_iterator T is_const space) : Bool :=
  decide (lhs.__ptr_ = rhs.__ptr_)

/-- The friend `operator!=` (declared up to C++17): `__lhs.__ptr_ != __rhs.__ptr_`. -/
def heterogeneous_iterator.operator_ne {T : Type} {is_const : Bool} {space : _ExecutionSpace}
    (lhs rhs : heterogeneous_iterator T is_const space) : Bool :=
  decide (lhs.__ptr_ ≠ rhs.__ptr_)

/-- From C++20 on `x != y` is rewritten by the language as `!(x == y)`. -/
def heterogeneous_iterator.rewritten_ne {T : Type} {is_const : Bool} {space : _ExecutionSpace}
    (lhs rhs : heterogeneous_iterator T is_const space) : Bool :=
  !(lhs.operator_eq rhs)

/-- The friend `operator<=>`: `__lhs.__ptr_ <=> __rhs.__ptr_`, a
`strong_ordering`. -/
def heterogeneous_iterator.operator_spaceship {T : Type} {is_const : Bool}
    {space : _ExecutionSpace} (lhs rhs : heterogeneous_iterator T is_const space) : Ordering :=
  compare lhs.__ptr_ rhs.__ptr_

/-- The friend `operator<`: `__lhs.__ptr_ < __rhs.__ptr_`. -/
def heterogeneous_iterator.operator_lt {T : Type} {is_const : Bool} {space : _ExecutionSpace}
    (lhs rhs : heterogeneous_iterator T is_const space) : Bool :=
  decide (lhs.__ptr_ < rhs.__ptr_)

/-- The friend `operator<=`: `__lhs.__ptr_ <= __rhs.__ptr_`. -/
def heterogeneous_iterator.operator_le {T : Type} {is_const : Bool} {space : _ExecutionSpace}
    (lhs rhs : heterogeneous_iterator T is_const space) : Bool :=
  decide (lhs.__ptr_ ≤ rhs.__ptr_)

/-- The friend `operator>`: `__lhs.__ptr_ > __rhs.__ptr_`. -/
def heterogeneous_iterator.operator_gt {T : Type} {is_const : Bool} {space : _ExecutionSpace}
    (lhs rhs : heterogeneous_iterator T is_const space) : Bool :=
  decide (lhs.__ptr_ > rhs.__ptr_)

/-- The friend `operator>=`: `__lhs.__ptr_ >= __rhs.__ptr_`. -/
def heterogeneous_iterator.operator_ge {T : Type} {is_const : Bool} {space : _ExecutionSpace}
    (lhs rhs : heterogeneous_iterator T is_const space) : Bool :=
  decide (lhs.__ptr_ ≥ rhs.__ptr_)

/-- Where `operator<=>` is declared, `x < y` is rewritten by the language as
`(x <=> y) < 0`. -/
def heterogeneous_iterator.rewritten_lt {T : Type} {is_const : Bool} {space : _ExecutionSpace}
    (lhs rhs : heterogeneous_iterator T is_const space) : Bool :=
  match lhs.operator_spaceship rhs with
  | .lt => true
  | _ => false

/-- Where `operator<=>` is declared, `x <= y` is rewritten as `(x <=> y) <= 0`. -/
def heterogeneous_iterator.rewritten_le {T : Type} {is_const : Bool} {space : _ExecutionSpace}
    (lhs rhs : heterogeneous_iterator T is_const space) : Bool :=
  match lhs.operator_spaceship rhs with
  | .gt => false
  | _ => true

/-- Where `operator<=>` is declared, `x > y` is rewritten as `(x <=> y) > 0`. -/
def heterogeneous_iterator.rewritten_gt {T : Type} {is_const : Bool} {space : _ExecutionSpace}
    (lhs rhs : heterogeneous_iterator T is_const space) : Bool :=
  match lhs.operator_spaceship rhs with
  | .gt => true
  | _ => false

/-- Where `operator<=>` is declared, `x >= y` is rewritten as `(x <=> y) >= 0`. -/
def heterogeneous_iterator.rewritten_ge {T : Type} {is_const : Bool} {space : _ExecutionSpace}
    (lhs rhs : heterogeneous_iterator T is_const space) : Bool :=
  match lhs.operator_spaceship rhs with
  | .lt => false
  | _ => true

/-- Modelled from the spec: `to_address` of a raw pointer (its header is not
among the sources) is the pointer itself, "a plain address". -/
def to_address (p : Int) : Int := p

/-- The member `pointer_traits<heterogeneous_iterator<...>>::to_address`:
`to_address(__iter.__ptr_)`. -/
def pointer_traits.to_address {T : Type} {is_const : Bool} {space : _ExecutionSpace}
    (iter : heterogeneous_iterator T is_const space) : Int :=
  cudax.to_address iter.__ptr_

/-- The marker the source puts on `pointer_traits<...>::to_address`, one
declaration for all execution spaces. -/
def pointer_traits.to_address_target (_space : _ExecutionSpace) : target :=
  target._CCCL_HOST_DEVICE

/-- The member `vector::begin()` as the iterator it returns, built from
`__buf_.data()`. -/
def vector.begin_iterator {T : Type} {is_const : Bool} {space : _ExecutionSpace}
    (self : vector) : heterogeneous_iterator T is_const space :=
  heterogeneous_iterator.construct (self.begin : Int)

/-! ## `repeat_view` (`repeat_view.h`) -/

/-- An integer type of the program: the integers from `lowest` to `highest`. -/
structure index_type where
  lowest : Int
  highest : Int
deriving DecidableEq, Repr

/-- The value an arithmetic result takes in an integer type: the result
modulo the number of values of the type (for a signed type the source
language leaves a result outside the range undefined). -/
def index_type.wrap (t : index_type) (x : Int) : Int :=
  (x - t.lowest) % (t.highest - t.lowest + 1) + t.lowest

/-- The type `ptrdiff_t`, of 64 bits. -/
def ptrdiff_t : index_type := { lowest := -(2 ^ 63), highest := 2 ^ 63 - 1 }

/-- The template argument `_Bound` of `repeat_view`: `unreachable_sentinel_t`
or an integer type. -/
inductive bound_type where
  | unreachable_sentinel_t
  | integer (t : index_type)
deriving DecidableEq, Repr

/-- The alias `_IndexT`:
`conditional_t<same_as<_Bound, unreachable_sentinel_t>, ptrdiff_t, _Bound>`. -/
def bound_type._IndexT : bound_type → index_type
  | .unreachable_sentinel_t => ptrdiff_t
  | .integer t => t

/-- The condition `!same_as<_Bound, unreachable_sentinel_t>` under which the
assertions of the iterator are compiled. -/
def bound_type.is_bounded : bound_type → Bool
  | .unreachable_sentinel_t => false
  | .integer _ => true

/-- The class `repeat_view<_Tp, _Bound>::__iterator`: the pointer `__value_`
to the value of the view (`none` is the null pointer) and the position
`__current_`, by default `_IndexT()`, which is 0. -/
structure repeat_view.__iterator (T : Type) (B : bound_type) where
  __value_ : Option T := none
  __current_ : Int := 0
deriving DecidableEq, Repr

/-- The class `repeat_view<_Tp, _Bound>`: the value and the bound (of no
meaning when `_Bound` is `unreachable_sentinel_t`). -/
structure repeat_view (T : Type) (B : bound_type) where
  __value_ : T
  __bound_ : Int := 0
deriving DecidableEq, Repr

/-- The member `repeat_view::begin()`: `__iterator(addressof(*__value_))`, at
position `_IndexT()`. -/
def repeat_view.begin {T : Type} {B : bound_type} (self : repeat_view T B) :
    repeat_view.__iterator T B :=
  { __value_ := some self.__value_, __current_ := 0 }

/-- The member `operator++()`: `++__current_; return *this;`. -/
def repeat_view.__iterator.pre_increment {T : Type} {B : bound_type}
    (self : repeat_view.__iterator T B) : repeat_view.__iterator T B :=
  { self with __current_ := B._IndexT.wrap (self.__current_ + 1) }

/-- The member `operator++(int)`: `auto __tmp = *this; ++*this; return __tmp;`.
Returns the iterator returned and `*this` after the call. -/
def repeat_view.__iterator.post_increment {T : Type} {B : bound_type}
    (self : repeat_view.__iterator T B) :
    repeat_view.__iterator T B × repeat_view.__iterator T B :=
  let tmp := self
  (tmp, self.pre_increment)

/-- The member `operator--()`: for a bounded view the assertion
`__current_ > 0`, whose failure is fatal (`none`); then `--__current_;
return *this;`. -/
def repeat_view.__iterator.pre_decrement {T : Type} {B : bound_type}
    (self : repeat_view.__iterator T B) : Option (repeat_view.__iterator T B) :=
  if B.is_bounded ∧ ¬ self.__current_ > 0 then none
  else some { self with __current_ := B._IndexT.wrap (self.__current_ - 1) }

/-- The member `operator--(int)`: `auto __tmp = *this; --*this; return __tmp;`.
Returns the iterator returned and `*this` after the call. -/
def repeat_view.__iterator.post_decrement {T : Type} {B : bound_type}
    (self : repeat_view.__iterator T B) :
    Option (repeat_view.__iterator T B × repeat_view.__iterator T B) :=
  let tmp := self
  match self.pre_decrement with
  | none => none
  | some it => some (tmp, it)

/-- The member `operator+=(n)`: for a bounded view the assertion
`__current_ + __n >= 0`, whose failure is fatal (`none`); then
`__current_ += static_cast<_IndexT>(__n); return *this;`.  The sum of the
assertion is taken in the integers, as the source takes it when the sum is
signed and does not overflow; where the sum of the source is unsigned (a
64-bit unsigned `_IndexT`) the assertion of the source cannot fail. -/
def repeat_view.__iterator.operator_add_assign {T : Type} {B : bound_type}
    (self : repeat_view.__iterator T B) (n : Int) : Option (repeat_view.__iterator T B) :=
  if B.is_bounded ∧ ¬ self.__current_ + n ≥ 0 then none
  else some { self with __current_ := B._IndexT.wrap (self.__current_ + B._IndexT.wrap n) }

/-- The friend `operator+(__iterator __i, difference_type __n)`:
`__i += __n; return __i;`. -/
def repeat_view.__iterator.operator_add {T : Type} {B : bound_type}
    (i : repeat_view.__iterator T B) (n : Int) : Option (repeat_view.__iterator T B) :=
  i.operator_add_assign n

/-- The friend `operator==` of the iterator: `__x.__current_ == __y.__current_`. -/
def repeat_view.__iterator.operator_eq {T : Type} {B : bound_type}
    (x y : repeat_view.__iterator T B) : Bool :=
  decide (x.__current_ = y.__current_)

/-- The view of the tests: `repeat_view<int> rv(10)`, without a bound. -/
def demo_rv : repeat_view Int bound_type.unreachable_sentinel_t := { __value_ := 10 }

/-- A vector of `int` holding three elements in a three-element buffer at
address 300, obtained from the resource with identity 0. -/
def demo_u : vector :=
  { __buf_ := { resource := { id := 0 }, size := 3, data := 300 }, __size_ := 3 }

/-! ## Arithmetic of the iterator (`heterogeneous_iterator.h`) -/

/-- The member `operator++()`: `++this->__ptr_; return *this;`. -/
def heterogeneous_iterator.pre_increment {T : Type} {is_const : Bool}
    {space : _ExecutionSpace} (self : heterogeneous_iterator T is_const space) :
    heterogeneous_iterator T is_const space :=
  { self with __ptr_ := self.__ptr_ + 1 }

/-- The member `operator++(int)`: `__temp = *this; ++this->__ptr_; return
__temp;`.  Returns the iterator returned and `*this` after the call. -/
def heterogeneous_iterator.post_increment {T : Type} {is_const : Bool}
    {space : _ExecutionSpace} (self : heterogeneous_iterator T is_const space) :
    heterogeneous_iterator T is_const space × heterogeneous_iterator T is_const space :=
  let temp := self
  (temp, { self with __ptr_ := self.__ptr_ + 1 })

/-- The member `operator--()`: `--this->__ptr_; return *this;`. -/
def heterogeneous_iterator.pre_decrement {T : Type} {is_const : Bool}
    {space : _ExecutionSpace} (self : heterogeneous_iterator T is_const space) :
    heterogeneous_iterator T is_const space :=
  { self with __ptr_ := self.__ptr_ - 1 }

/-- The member `operator--(int)`: `__temp = *this; --this->__ptr_; return
__temp;`.  Returns the iterator returned and `*this` after the call. -/
def heterogeneous_iterator.post_decrement {T : Type} {is_const : Bool}
    {space : _ExecutionSpace} (self : heterogeneous_iterator T is_const space) :
    heterogeneous_iterator T is_const space × heterogeneous_iterator T is_const space :=
  let temp := self
  (temp, { self with __ptr_ := self.__ptr_ - 1 })

/-- The member `operator+=(count)`: `this->__ptr_ += __count; return *this;`.
The pointer moves by whole elements, and an address counts elements. -/
def heterogeneous_iterator.operator_add_assign {T : Type} {is_const : Bool}
    {space : _ExecutionSpace} (self : heterogeneous_iterator T is_const space) (count : Int) :
    heterogeneous_iterator T is_const space :=
  { self with __ptr_ := self.__ptr_ + count }

/-- The member `operator+(count)`: `__temp = *this; __temp += __count; return
__temp;`. -/
def heterogeneous_iterator.operator_add {T : Type} {is_const : Bool}
    {space : _ExecutionSpace} (self : heterogeneous_iterator T is_const space) (count : Int) :
    heterogeneous_iterator T is_const space :=
  let temp := self
  temp.operator_add_assign count

/-- The friend `operator+(count, other)`: `__other += __count; return
__other;`, on the copy the parameter is. -/
def heterogeneous_iterator.operator_add_left {T : Type} {is_const : Bool}
    {space : _ExecutionSpace} (count : Int) (other : heterogeneous_iterator T is_const space) :
    heterogeneous_iterator T is_const space :=
  other.operator_add_assign count

/-- The member `operator-=(count)`: `this->__ptr_ -= __count; return *this;`. -/
def heterogeneous_iterator.operator_sub_assign {T : Type} {is_const : Bool}
    {space : _ExecutionSpace} (self : heterogeneous_iterator T is_const space) (count : Int) :
    heterogeneous_iterator T is_const space :=
  { self with __ptr_ := self.__ptr_ - count }

/-- The member `operator-(count)`: `__temp = *this; __temp -= __count; return
__temp;`. -/
def heterogeneous_iterator.operator_sub {T : Type} {is_const : Bool}
    {space : _ExecutionSpace} (self : heterogeneous_iterator T is_const space) (count : Int) :
    heterogeneous_iterator T is_const space :=
  let temp := self
  temp.operator_sub_assign count

/-- The member `operator-(other)`:
`static_cast<difference_type>(this->__ptr_ - __other.__ptr_)`, the number of
elements between the two addresses. -/
def heterogeneous_iterator.operator_difference {T : Type} {is_const : Bool}
    {space : _ExecutionSpace} (self other : heterogeneous_iterator T is_const space) : Int :=
  self.__ptr_ - other.__ptr_

/-! ## The assertion of the constructor without initialisation (`vector.h`) -/

/-- The condition of the assertion in the body of the constructor
`vector(mr, size, uninitialized_construction)`:
`_LIBCUDACXX_ASSERT(__size <= __buf.size(), ...)`, read on the member
`__buf_` the constructor has just built (the class declares no `__buf`). -/
def vector.construct_uninitialized_assertion (self : vector) (size : Nat) : Bool :=
  decide (size ≤ self.__buf_.size)

/-! ## The pointer overload of `__copy` (`copy.h`) -/

/-- What the preprocessor and the compiler decide for one call of the pointer
overload of `__copy`:
`gcc_before_9` is `defined(_CCCL_COMPILER_GCC) && _GNUC_VER < 900`,
`constant_evaluated` is the answer of `__libcpp_is_constant_evaluated()`,
`runs_on` is the branch `NV_IF_ELSE_TARGET(NV_IS_HOST, ...)` takes,
`has_builtin_constant_p` is
`__has_builtin(__builtin_constant_p) || defined(_CCCL_COMPILER_GCC)`, and
`constant_p` is the answer of `__builtin_constant_p(__first < __needle)`. -/
structure call_context where
  gcc_before_9 : Bool
  constant_evaluated : Bool
  runs_on : side
  has_builtin_constant_p : Bool
  constant_p : Bool
deriving DecidableEq, Repr

/-- Modelled from the spec: `memmove` (`cstring`) is not among the sources and
the spec does not describe it; the model follows its contract, by which the
`n` elements at `first` are copied to `result` as if through a temporary
buffer: every destination cell receives what its source cell held before the
call. -/
def memmove {T : Type} (result first n : Nat) (m : memory T) : memory T :=
  fun q => if result ≤ q ∧ q < result + n then (m (first + (q - result))).copied else m q

/-- The function `__dispatch_memmove(result, first, n)`: `false` with a GCC
before 9 and during constant evaluation; otherwise on the host
`memmove(__result, __first, __n * sizeof(_Up)); return true;` and on the
device `return false;`.  Returns the answer and the memory. -/
def __dispatch_memmove {T : Type} (c : call_context) (result first n : Nat) (m : memory T) :
    Bool × memory T :=
  if c.gcc_before_9 then (false, m)
  else if c.constant_evaluated then (false, m)
  else
    match c.runs_on with
    | .host => (true, memmove result first n m)
    | .device => (false, m)

/-- The loop of `__constexpr_tail_overlap_fallback`:
`while (__first != __last) { if (__first == __needle) return true; ++__first; }
return false;`, run for the `last - first` steps that remain. -/
def __constexpr_tail_overlap_fallback_loop : Nat → Nat → Nat → Bool
  | 0, _, _ => false
  | k + 1, first, needle =>
      if first = needle then true
      else __constexpr_tail_overlap_fallback_loop k (first + 1) needle

/-- The function `__constexpr_tail_overlap_fallback(first, needle, last)`. -/
def __constexpr_tail_overlap_fallback (first needle last : Nat) : Bool :=
  __constexpr_tail_overlap_fallback_loop (last - first) first needle

/-- The function `__constexpr_tail_overlap(first, needle, last)`: where the
builtin exists, on the host
`__builtin_constant_p(__first < __needle) && __first < __needle` and on the
device the fallback; where it does not exist, the fallback. -/
def __constexpr_tail_overlap (c : call_context) (first needle last : Nat) : Bool :=
  if c.has_builtin_constant_p then
    match c.runs_on with
    | .host => c.constant_p && decide (first < needle)
    | .device => __constexpr_tail_overlap_fallback first needle last
  else __constexpr_tail_overlap_fallback first needle last

/-- The backward loop of the pointer overload:
`for (ptrdiff_t __i = __n; __i > 0; --__i) *(__result + __i - 1) = *(__first + __i - 1);`,
by the value of `__i`. -/
def __copy_backward_loop {T : Type} : Nat → Nat → Nat → memory T → memory T
  | 0, _, _, m => m
  | i + 1, first, result, m =>
      __copy_backward_loop i first result (m.store (result + i) (m (first + i)).copied)

/-- The forward loop of the pointer overload:
`for (ptrdiff_t __i = 0; __i < __n; ++__i) *(__result + __i) = *(__first + __i);`,
by the number `k` of steps that remain and the value of `__i`. -/
def __copy_forward_loop {T : Type} : Nat → Nat → Nat → Nat → memory T → memory T
  | 0, _, _, _, m => m
  | k + 1, i, first, result, m =>
      __copy_forward_loop k (i + 1) first result (m.store (result + i) (m (first + i)).copied)

/-- The overload `__copy(_Tp* first, _Tp* last, _Up* result)` for trivially
copy-assignable elements.  `__n = __last - __first` is a `ptrdiff_t`, negative
when `last` is before `first`; the pointer returned, `__result + __n`, is
given as an integer address.  Returns the pair and the memory. -/
def __copy.pointer_overload {T : Type} (c : call_context) (first last result : Nat)
    (m : memory T) : (Nat × Int) × memory T :=
  let n : Int := (last : Int) - (first : Int)
  if n > 0 then
    let d := __dispatch_memmove c result first n.toNat m
    if d.1 then ((last, (result : Int) + n), d.2)
    else if (!c.constant_evaluated && decide (first < result))
        || __constexpr_tail_overlap c first result last then
      ((last, (result : Int) + n), __copy_backward_loop n.toNat first result m)
    else
      ((last, (result : Int) + n), __copy_forward_loop n.toNat 0 first result m)
  else ((last, (result : Int) + n), m)

/-- A memory of `int` with the elements 1, 2, 3, 4 at the addresses 10 to 13. -/
def demo_c : memory Int :=
  (((memory.empty.store 10 (slot.object 1)).store 11 (slot.object 2)).store 12
    (slot.object 3)).store 13 (slot.object 4)

/-- A call at run time on the device, compiled with a compiler that has
`__builtin_constant_p`. -/
def demo_device : call_context :=
  { gcc_before_9 := false, constant_evaluated := false, runs_on := side.device,
    has_builtin_constant_p := true, constant_p := false }

/-! ## Dereference, end and size of `repeat_view` (`repeat_view.h`) -/

/-- The member `operator*()` of the iterator: `return *__value_;` (`none` when
the pointer is null). -/
def repeat_view.__iterator.operator_deref {T : Type} {B : bound_type}
    (self : repeat_view.__iterator T B) : Option T :=
  self.__value_

/-- The member `operator[](n)` of the iterator: `return *(*this + __n);`, with
the assertion of `operator+=` on the way (`none` when it fails). -/
def repeat_view.__iterator.operator_subscript {T : Type} {B : bound_type}
    (self : repeat_view.__iterator T B) (n : Int) : Option T :=
  match self.operator_add n with
  | none => none
  | some it => it.operator_deref

/-- The alias `__repeat_view_iterator_difference_t<_IndexT>`:
`_If<__signed_integer_like<_Tp>, _Tp, _IotaDiffT<_Tp>>`.  The alias
`_IotaDiffT` is not among the sources; the type it names for `_IndexT` is the
argument `iota_diff`. -/
def __repeat_view_iterator_difference_t (t iota_diff : index_type) : index_type :=
  if t.lowest < 0 then t else iota_diff

/-- The friend `operator-(x, y)` of the iterator:
`static_cast<difference_type>(__x.__current_) - static_cast<difference_type>(__y.__current_)`,
in the type `difference_type`. -/
def repeat_view.__iterator.operator_difference {T : Type} {B : bound_type}
    (iota_diff : index_type) (x y : repeat_view.__iterator T B) : Int :=
  let d := __repeat_view_iterator_difference_t B._IndexT iota_diff
  d.wrap (d.wrap x.__current_ - d.wrap y.__current_)

/-- The constructor `repeat_view(value, bound_sentinel)`: for a bounded view
the assertion `__bound_ >= 0`, whose failure is fatal (`none`). -/
def repeat_view.construct {T : Type} {B : bound_type} (value : T) (bound_sentinel : Int) :
    Option (repeat_view T B) :=
  if B.is_bounded ∧ ¬ bound_sentinel ≥ 0 then none
  else some { __value_ := value, __bound_ := bound_sentinel }

/-- The member `end()` of a bounded view:
`__iterator(addressof(*__value_), __bound_)`. -/
def repeat_view.end {T : Type} {t : index_type}
    (self : repeat_view T (bound_type.integer t)) :
    repeat_view.__iterator T (bound_type.integer t) :=
  { __value_ := some self.__value_, __current_ := self.__bound_ }

/-- Modelled from the spec: `__to_unsigned_like` is not among the sources and
the spec does not describe it; by its name and use it converts a value to the
unsigned type of the same width, which leaves a value that is not negative as
it is and adds the number of values of the type to a negative one. -/
def __to_unsigned_like (t : index_type) (x : Int) : Int :=
  if x ≥ 0 then x else x + (t.highest - t.lowest + 1)

/-- The member `size()` of a bounded view: `__to_unsigned_like(__bound_)`. -/
def repeat_view.size {T : Type} {t : index_type}
    (self : repeat_view T (bound_type.integer t)) : Int :=
  __to_unsigned_like t self.__bound_

/-- The type `unsigned long long`, of 64 bits. -/
def unsigned_long_long : index_type := { lowest := 0, highest := 2 ^ 64 - 1 }

/-- A call at run time on the host, compiled with a compiler that has
`__builtin_constant_p`. -/
def demo_host : call_context :=
  { gcc_before_9 := false, constant_evaluated := false, runs_on := side.host,
    has_builtin_constant_p := true, constant_p := false }

end cudax

namespace cudax

/-! ## Memory lemmas -/

theorem slot.value_copied {T : Type} (s : slot T) : s.copied.value = s.value := by
  cases s <;> rfl

theorem memory.store_apply {T : Type} (m : memory T) (p q : Nat) (s : slot T) :
    (m.store p s) q = if q = p then s else m q := rfl

/-- What `store_n` leaves at each address. -/
theorem memory.store_n_apply {T : Type} (n : Nat) :
    ∀ (first : Nat) (s : slot T) (m : memory T) (q : Nat),
      (memory.store_n first n s m) q = if first ≤ q ∧ q < first + n then s else m q := by
  induction n with
  | zero =>
      intro first s m q
      have h : ¬ (first ≤ q ∧ q < first + 0) := by omega
      rw [if_neg h]; rfl
  | succ k ih =>
      intro first s m q
      rw [memory.store_n, ih, memory.store_apply]
      by_cases h1 : q = first
      · subst h1
        have h2 : ¬ (q + 1 ≤ q ∧ q < q + 1 + k) := by omega
        have h3 : q ≤ q ∧ q < q + (k + 1) := by omega
        simp [h2, h3]
      · by_cases h2 : first + 1 ≤ q ∧ q < first + 1 + k
        · have h3 : first ≤ q ∧ q < first + (k + 1) := by omega
          simp [h2, h3]
        · have h3 : ¬ (first ≤ q ∧ q < first + (k + 1)) := by omega
          simp [h1, h2, h3]

/-- The copy loop returns the destination advanced by the number of elements. -/
theorem __copy_loop_fst {T : Type} (n : Nat) :
    ∀ (first result : Nat) (m : memory T), (__copy_loop n first result m).1 = result + n := by
  induction n with
  | zero => intro first result m; simp [__copy_loop]
  | succ k ih => intro first result m; rw [__copy_loop, ih]; omega

/-- What the copy loop leaves at each address, when the destination does not
start inside the source range after its first element. -/
theorem __copy_loop_apply {T : Type} (n : Nat) :
    ∀ (first result : Nat) (m : memory T) (q : Nat),
      (result ≤ first ∨ first + n ≤ result) →
      (__copy_loop n first result m).2 q =
        if result ≤ q ∧ q < result + n then (m (first + (q - result))).copied else m q := by
  induction n with
  | zero =>
      intro first result m q _
      have h : ¬ (result ≤ q ∧ q < result + 0) := by omega
      rw [if_neg h]; rfl
  | succ k ih =>
      intro first result m q h
      have h0 : result + 1 ≤ first + 1 ∨ first + 1 + k ≤ result + 1 := by omega
      rw [__copy_loop, ih (first + 1) (result + 1) _ q h0]
      by_cases h1 : q = result
      · subst h1
        have h2 : ¬ (q + 1 ≤ q ∧ q < q + 1 + k) := by omega
        have h3 : q ≤ q ∧ q < q + (k + 1) := by omega
        simp [h2, h3, memory.store_apply]
      · by_cases h2 : result + 1 ≤ q ∧ q < result + 1 + k
        · have h3 : result ≤ q ∧ q < result + (k + 1) := by omega
          have h4 : first + 1 + (q - (result + 1)) = first + (q - result) := by omega
          have h5 : ¬ (first + (q - result) = result) := by omega
          simp [h2, h3, h4, h5, memory.store_apply]
        · have h3 : ¬ (result ≤ q ∧ q < result + (k + 1)) := by omega
          simp [h1, h2, h3, memory.store_apply]

/-! ## The branches of the vector operations -/

theorem vector.resize_shrink_eq {T : Type} [element T] (v : vector) (n : Nat) (value : T)
    (reply : Except bad_alloc Nat) (m : memory T) (h : n < v.__size_) :
    v.resize n value reply m = outcome.returned ({ v with __size_ := n },
      if !element.is_trivially_destructible T then __destroy (v.begin + n) v.end m else m) := by
  rw [vector.resize, if_pos h]

theorem vector.resize_inplace_eq {T : Type} [element T] (v : vector) (n : Nat) (value : T)
    (reply : Except bad_alloc Nat) (m : memory T) (h1 : ¬ n < v.__size_)
    (h2 : n < v.__buf_.size) :
    v.resize n value reply m = outcome.returned ({ v with __size_ := n },
      uninitialized_fill_n v.end (n - v.__size_) value m) := by
  rw [vector.resize, if_neg h1, if_pos h2]

theorem vector.resize_realloc_eq {T : Type} [element T] (v : vector) (n : Nat) (value : T)
    (p : Nat) (m : memory T) (h1 : ¬ n < v.__size_) (h2 : ¬ n < v.__buf_.size) :
    v.resize n value (Except.ok p) m = outcome.returned
      ({ __buf_ := { resource := v.__buf_.resource, size := n, data := p }, __size_ := n },
        v.__buf_.release
          (uninitialized_move v.begin v.end p
            (uninitialized_fill_n (p + v.__size_) (n - v.__size_) value
              (memory.store_n p n slot.raw m))).2) := by
  rw [vector.resize, if_neg h1, if_neg h2]
  rfl

theorem vector.copy_construct_eq {T : Type} (a : vector) (p : Nat) (m : memory T) :
    a.copy_construct (Except.ok p) m = Except.ok
      ({ __buf_ := { resource := a.__buf_.resource, size := a.__size_, data := p },
         __size_ := a.__size_ },
        (uninitialized_copy a.begin a.end p (memory.store_n p a.__size_ slot.raw m)).2) := rfl

theorem vector.move_assign_eq {T : Type} (self other : vector) (m : memory T) :
    self.move_assign other m =
      ({ __buf_ := other.__buf_, __size_ := other.__size_ },
        { other with __buf_ := other.__buf_.moved_from },
        self.__buf_.release (__destroy self.begin self.end m)) := rfl

/-! ## The size invariant and copy assignment -/

/-- C1 (the code breaks it): two vectors are built by `vector(mr, 1, 5)` and
`vector(mr, 3, 7)` and the first is copy-assigned to the second.  The buffers
differ in capacity, so the assignment installs a new one-element buffer, and
it leaves `__size_` at 3: the state reached has `size() == 3` and
`capacity() == 1`, so `size() <= capacity()` fails. -/
theorem size_exceeds_capacity_after_copy_assign :
    ∃ (a b b1 : vector) (m1 m2 m3 : memory Int),
      vector.construct_fill ⟨0⟩ 1 (5 : Int) (Except.ok 100) memory.empty = Except.ok (a, m1) ∧
      vector.construct_fill ⟨0⟩ 3 (7 : Int) (Except.ok 200) m1 = Except.ok (b, m2) ∧
      b.copy_assign a (Except.ok 300) m2 = outcome.returned (b1, m3) ∧
      b1.size = 3 ∧ b1.capacity = 1 ∧ ¬ b1.size ≤ b1.capacity :=
  ⟨_, _, _, _, _, _, rfl, rfl, rfl, rfl, rfl, by decide⟩

/-- C2 (the code breaks it): `a` is `vector(mr, 3, 5)` shrunk to one element
by `resize(1)`, `b` is `vector(mr, 3, 7)`.  Resource and capacity agree, so
`b = a` runs in place: it copies the one element of `a`, destroys the other
two of `b`, and returns with `b.size()` still 3 while `a.size()` is 1. -/
theorem copy_assign_keeps_old_size :
    ∃ (a0 a b b1 : vector) (m1 m2 m3 m4 : memory Int),
      vector.construct_fill ⟨0⟩ 3 (5 : Int) (Except.ok 100) memory.empty = Except.ok (a0, m1) ∧
      a0.resize 1 (0 : Int) (Except.ok 0) m1 = outcome.returned (a, m2) ∧
      vector.construct_fill ⟨0⟩ 3 (7 : Int) (Except.ok 200) m2 = Except.ok (b, m3) ∧
      b.copy_assign a (Except.ok 300) m3 = outcome.returned (b1, m4) ∧
      a.size = 1 ∧ b1.size = 3 ∧ b1.size ≠ a.size ∧
      b1.get m4 0 = some 5 ∧ m4 (b1.begin + 1) = slot.raw :=
  ⟨_, _, _, _, _, _, _, _, rfl, rfl, rfl, rfl, rfl, rfl, by decide, rfl, rfl⟩

/-! ## Move assignment -/

/-- C3 (the code breaks it): `a` is `vector(mr, 1, 5)` and `b` is `vector(mr)`.
After `b = move(a)` the source `a` has given up its buffer (capacity 0) but
its `__size_` is not reset: `a.size()` is still 1. -/
theorem move_assign_leaves_source_size :
    ∃ (a b a1 b1 : vector) (m1 m2 m3 : memory Int),
      vector.construct_fill ⟨0⟩ 1 (5 : Int) (Except.ok 100) memory.empty = Except.ok (a, m1) ∧
      vector.construct ⟨0⟩ (Except.ok 200) m1 = Except.ok (b, m2) ∧
      b.move_assign a m2 = (b1, a1, m3) ∧
      a1.size = 1 ∧ a1.size ≠ 0 ∧ a1.capacity = 0 :=
  ⟨_, _, _, _, _, _, _, rfl, rfl, rfl, rfl, by decide, rfl⟩

/-! ## Resize -/

/-- C4: for a vector `v` with `size() <= capacity()` and every `n > size()`,
when the resource answers the request for storage (made when
`n >= capacity()`) with storage that does not overlap the buffer held,
`resize(n, value)` returns with `size() == n`, every element below the old
size has the value it had, and every element in `[old size, n)` equals
`value`.  Both the growth in place and the growth into a new buffer are
covered. -/
theorem resize_grow {T : Type} [element T] (v : vector) (n : Nat) (value : T)
    (reply : Except bad_alloc Nat) (m : memory T) (hn : v.size < n)
    (hwf : v.size ≤ v.capacity)
    (halloc : v.capacity ≤ n → ∃ p, reply = Except.ok p ∧ separate p n v.begin v.capacity) :
    ∃ v1 m1, v.resize n value reply m = outcome.returned (v1, m1) ∧ v1.size = n ∧
      (∀ i, i < v.size → v1.get m1 i = v.get m i) ∧
      (∀ i, v.size ≤ i → i < n → v1.get m1 i = some value) := by
  simp only [vector.size, vector.capacity, vector.begin] at hn hwf halloc
  have h1 : ¬ n < v.__size_ := by omega
  by_cases h2 : n < v.__buf_.size
  · refine ⟨_, _, vector.resize_inplace_eq v n value reply m h1 h2, rfl, ?_, ?_⟩
    · intro i hi
      simp only [vector.size] at hi
      simp only [vector.get, uninitialized_fill_n, vector.end]
      rw [memory.store_n_apply, if_neg (by omega)]
    · intro i hi1 hi2
      simp only [vector.size] at hi1
      simp only [vector.get, uninitialized_fill_n, vector.end]
      rw [memory.store_n_apply, if_pos (by omega)]
      rfl
  · obtain ⟨p, hp, hsep⟩ := halloc (by omega)
    clear halloc
    subst hp
    unfold separate at hsep
    have hov : p ≤ v.__buf_.data ∨
        v.__buf_.data + (v.__buf_.data + v.__size_ - v.__buf_.data) ≤ p := by
      omega
    refine ⟨_, _, vector.resize_realloc_eq v n value p m h1 h2, rfl, ?_, ?_⟩
    · intro i hi
      simp only [vector.size] at hi
      simp only [vector.get, uninitialized_buffer.release, uninitialized_move,
        uninitialized_fill_n, vector.begin, vector.end]
      rw [memory.store_n_apply, if_neg (by omega), __copy_loop_apply _ _ _ _ _ hov,
        if_pos (by omega), memory.store_n_apply, if_neg (by omega), memory.store_n_apply,
        if_neg (by omega), slot.value_copied]
      congr 3
      omega
    · intro i hi1 hi2
      simp only [vector.size] at hi1
      simp only [vector.get, uninitialized_buffer.release, uninitialized_move,
        uninitialized_fill_n, vector.begin, vector.end]
      rw [memory.store_n_apply, if_neg (by omega), __copy_loop_apply _ _ _ _ _ hov,
        if_neg (by omega), memory.store_n_apply, if_pos (by omega)]
      rfl

/-- The growth of `demo_v` from two to five elements, into fresh storage at
address 300. -/
theorem resize_grow_witness :
    (demo_v.size < 5 ∧ demo_v.size ≤ demo_v.capacity ∧ separate 300 5 demo_v.begin demo_v.capacity) ∧
    ∃ v1 m1, demo_v.resize 5 (9 : Int) (Except.ok 300) demo_m = outcome.returned (v1, m1) ∧
      v1.size = 5 ∧
      (∀ i, i < demo_v.size → v1.get m1 i = demo_v.get demo_m i) ∧
      (∀ i, demo_v.size ≤ i → i < 5 → v1.get m1 i = some 9) :=
  ⟨by decide, resize_grow demo_v 5 9 (Except.ok 300) demo_m (by decide) (by decide)
    (fun _ => ⟨300, rfl, by decide⟩)⟩

/-- C5: for every vector and every `n < size()`, `resize(n)` (with any fill
value, the default `T{}` included) returns with `size() == n`, the capacity
it had, and every element below `n` with the value it had. -/
theorem resize_shrink {T : Type} [element T] (v : vector) (n : Nat) (value : T)
    (reply : Except bad_alloc Nat) (m : memory T) (h : n < v.size) :
    ∃ v1 m1, v.resize n value reply m = outcome.returned (v1, m1) ∧ v1.size = n ∧
      v1.capacity = v.capacity ∧ ∀ i, i < n → v1.get m1 i = v.get m i := by
  refine ⟨_, _, vector.resize_shrink_eq v n value reply m h, rfl, rfl, ?_⟩
  intro i hi
  simp only [vector.get, __destroy, vector.begin, vector.end]
  split_ifs
  · rw [memory.store_n_apply, if_neg (by omega)]
  · rfl

/-- The shrinking of `demo_v` from two elements to one. -/
theorem resize_shrink_witness :
    1 < demo_v.size ∧
    ∃ v1 m1, demo_v.resize 1 (element.value_initialized : Int) (Except.error ⟨0⟩) demo_m =
        outcome.returned (v1, m1) ∧ v1.size = 1 ∧
      v1.capacity = demo_v.capacity ∧ ∀ i, i < 1 → v1.get m1 i = demo_v.get demo_m i :=
  ⟨by decide, resize_shrink demo_v 1 element.value_initialized (Except.error ⟨0⟩) demo_m
    (by decide)⟩

/-! ## Copy construction -/

/-- C9: for every vector `a` with `size() <= capacity()` (the capacity may
exceed the size), when the resource answers with storage that does not overlap
the buffer of `a`, the copy constructor returns a vector `b` with
`b.size() == a.size()`, `b.capacity() == a.size()`, the resource of `a`, and
`b[i] == a[i]` for every `i < a.size()`; the buffer of `a` is left as it
was. -/
theorem copy_construct_exact {T : Type} (a : vector) (p : Nat) (m : memory T)
    (ha : a.size ≤ a.capacity) (hsep : separate p a.size a.begin a.capacity) :
    ∃ b m1, a.copy_construct (Except.ok p) m = Except.ok (b, m1) ∧
      b.size = a.size ∧ b.capacity = a.size ∧ b.resource = a.resource ∧
      (∀ i, i < a.size → b.get m1 i = a.get m i) ∧
      (∀ i, i < a.capacity → m1 (a.begin + i) = m (a.begin + i)) := by
  simp only [vector.size, vector.capacity, vector.begin, separate] at ha hsep
  have hov : p ≤ a.__buf_.data ∨
      a.__buf_.data + (a.__buf_.data + a.__size_ - a.__buf_.data) ≤ p := by
    omega
  refine ⟨_, _, vector.copy_construct_eq a p m, rfl, rfl, rfl, ?_, ?_⟩
  · intro i hi
    simp only [vector.size] at hi
    simp only [vector.get, uninitialized_copy, vector.begin, vector.end]
    rw [__copy_loop_apply _ _ _ _ _ hov, if_pos (by omega), memory.store_n_apply,
      if_neg (by omega), slot.value_copied]
    congr 3
    omega
  · intro i hi
    simp only [vector.capacity] at hi
    simp only [uninitialized_copy, vector.begin, vector.end]
    rw [__copy_loop_apply _ _ _ _ _ hov, if_neg (by omega), memory.store_n_apply,
      if_neg (by omega)]

/-- The copy of `demo_v`, whose capacity 3 exceeds its size 2, into fresh
storage at address 300. -/
theorem copy_construct_exact_witness :
    (demo_v.size ≤ demo_v.capacity ∧ separate 300 demo_v.size demo_v.begin demo_v.capacity) ∧
    ∃ b m1, demo_v.copy_construct (Except.ok 300) demo_m = Except.ok (b, m1) ∧
      b.size = demo_v.size ∧ b.capacity = demo_v.size ∧ b.resource = demo_v.resource ∧
      (∀ i, i < demo_v.size → b.get m1 i = demo_v.get demo_m i) ∧
      (∀ i, i < demo_v.capacity → m1 (demo_v.begin + i) = demo_m (demo_v.begin + i)) :=
  ⟨by decide, copy_construct_exact demo_v 300 demo_m (by decide) (by decide)⟩

/-- C6: let `b` be copy-constructed from a vector `a` with
`size() <= capacity()`, into storage that does not overlap the buffer of `a`,
and let `a.resize(a.size() + 5, x)` follow, any storage it obtains overlapping
neither buffer.  Then both calls return, `b.size()` is the size of `a` at the
copy (the fields of `b` are no argument of `resize`), and every element
`b[i]` reads after the resize what it read right after the copy. -/
theorem copy_then_resize_keeps_copy {T : Type} [element T] (a : vector) (x : T) (q : Nat)
    (reply : Except bad_alloc Nat) (m : memory T)
    (ha : a.size ≤ a.capacity) (hq : separate q a.size a.begin a.capacity)
    (halloc : a.capacity ≤ a.size + 5 → ∃ p, reply = Except.ok p ∧
      separate p (a.size + 5) a.begin a.capacity ∧ separate p (a.size + 5) q a.size) :
    ∃ b m1 a1 m2, a.copy_construct (Except.ok q) m = Except.ok (b, m1) ∧
      a.resize (a.size + 5) x reply m1 = outcome.returned (a1, m2) ∧
      b.size = a.size ∧ ∀ i, i < b.size → b.get m2 i = b.get m1 i := by
  simp only [vector.size, vector.capacity, vector.begin, separate] at ha hq halloc ⊢
  have h1 : ¬ a.__size_ + 5 < a.__size_ := by omega
  by_cases h2 : a.__size_ + 5 < a.__buf_.size
  · refine ⟨_, _, _, _, vector.copy_construct_eq a q m,
      vector.resize_inplace_eq a _ x reply _ h1 h2, rfl, ?_⟩
    intro i hi
    simp only [vector.size] at hi
    simp only [vector.get, uninitialized_fill_n, vector.end]
    rw [memory.store_n_apply, if_neg (by omega)]
  · obtain ⟨p, hp, hs1, hs2⟩ := halloc (by omega)
    clear halloc
    subst hp
    have hov : p ≤ a.__buf_.data ∨
        a.__buf_.data + (a.__buf_.data + a.__size_ - a.__buf_.data) ≤ p := by
      omega
    refine ⟨_, _, _, _, vector.copy_construct_eq a q m,
      vector.resize_realloc_eq a _ x p _ h1 h2, rfl, ?_⟩
    intro i hi
    simp only [vector.size] at hi
    simp only [vector.get, uninitialized_buffer.release, uninitialized_move,
      uninitialized_fill_n, vector.begin, vector.end]
    rw [memory.store_n_apply, if_neg (by omega), __copy_loop_apply _ _ _ _ _ hov,
      if_neg (by omega), memory.store_n_apply, if_neg (by omega), memory.store_n_apply,
      if_neg (by omega)]

/-- The copy of `demo_v` into storage at 300, then the growth of `demo_v` by
five elements into storage at 400. -/
theorem copy_then_resize_keeps_copy_witness :
    (demo_v.size ≤ demo_v.capacity ∧ separate 300 demo_v.size demo_v.begin demo_v.capacity ∧
      separate 400 (demo_v.size + 5) demo_v.begin demo_v.capacity ∧
      separate 400 (demo_v.size + 5) 300 demo_v.size) ∧
    ∃ b m1 a1 m2, demo_v.copy_construct (Except.ok 300) demo_m = Except.ok (b, m1) ∧
      demo_v.resize (demo_v.size + 5) (9 : Int) (Except.ok 400) m1 = outcome.returned (a1, m2) ∧
      b.size = demo_v.size ∧ ∀ i, i < b.size → b.get m2 i = b.get m1 i :=
  ⟨by decide, copy_then_resize_keeps_copy demo_v 9 300 (Except.ok 400) demo_m (by decide)
    (by decide) (fun _ => ⟨400, rfl, by decide, by decide⟩)⟩

/-! ## Move assignment and move construction -/

/-- C7: for vectors `a` and `b` with `size() <= capacity()` that own buffers
which do not overlap, after `b = move(a)` the size of `b` is the size `a`
had, its capacity is the capacity `a` had, and `b[i]` is the former element
`i` of `a` for every `i` below that size. -/
theorem move_assign_adopts {T : Type} (a b : vector) (m : memory T)
    (ha : a.size ≤ a.capacity) (hb : b.size ≤ b.capacity)
    (hsep : separate a.begin a.capacity b.begin b.capacity) :
    (b.move_assign a m).1.size = a.size ∧
      (b.move_assign a m).1.capacity = a.capacity ∧
      ∀ i, i < a.size → (b.move_assign a m).1.get (b.move_assign a m).2.2 i = a.get m i := by
  simp only [vector.size, vector.capacity, vector.begin, separate] at ha hb hsep
  refine ⟨rfl, rfl, ?_⟩
  intro i hi
  simp only [vector.size] at hi
  simp only [vector.move_assign_eq, vector.get, uninitialized_buffer.release, __destroy,
    vector.begin, vector.end]
  rw [memory.store_n_apply, if_neg (by omega), memory.store_n_apply, if_neg (by omega)]

/-- The move assignment of `demo_v` to `demo_w`. -/
theorem move_assign_adopts_witness :
    (demo_v.size ≤ demo_v.capacity ∧ demo_w.size ≤ demo_w.capacity ∧
      separate demo_v.begin demo_v.capacity demo_w.begin demo_w.capacity) ∧
    ((demo_w.move_assign demo_v demo_m).1.size = demo_v.size ∧
      (demo_w.move_assign demo_v demo_m).1.capacity = demo_v.capacity ∧
      ∀ i, i < demo_v.size →
        (demo_w.move_assign demo_v demo_m).1.get (demo_w.move_assign demo_v demo_m).2.2 i =
          demo_v.get demo_m i) :=
  ⟨by decide, move_assign_adopts demo_v demo_w demo_m (by decide) (by decide) (by decide)⟩

/-- C8 (the code breaks it): `a` is `vector(mr, 1, 5)`, of capacity 1 with
`a[0] == 5`.  The vector move-constructed from `a` takes the size 1 of `a`
but not its buffer: whatever the storage of its own member held, it ends with
capacity 0 and the null address, while `a` keeps the buffer it had and has
size 0. -/
theorem move_construct_leaves_buffer_behind :
    ∃ (a : vector) (m1 : memory Int),
      vector.construct_fill ⟨0⟩ 1 (5 : Int) (Except.ok 100) memory.empty = Except.ok (a, m1) ∧
      a.capacity = 1 ∧ a.get m1 0 = some 5 ∧
      ∀ storage : uninitialized_buffer,
        (a.move_construct storage).1.size = 1 ∧
        (a.move_construct storage).1.capacity = 0 ∧
        (a.move_construct storage).1.capacity ≠ a.capacity ∧
        (a.move_construct storage).1.begin = 0 ∧
        (a.move_construct storage).1.get m1 0 = none ∧
        (a.move_construct storage).2.__buf_ = a.__buf_ ∧
        (a.move_construct storage).2.size = 0 :=
  ⟨_, _, rfl, rfl, rfl, fun _ => ⟨rfl, rfl, Nat.zero_ne_one, rfl, rfl, rfl, rfl⟩⟩

/-! ## Construction with a size -/

/-- C10 (the code breaks it): `vector<int>(mr, 1)` has `size() == 1` and
`capacity() == 1`, but its element is default-initialised, not
value-initialised: the cell holds an object of indeterminate value, and
reading it does not give `int{}`, which is 0. -/
theorem construct_n_default_initializes :
    ∃ (v : vector) (m1 : memory Int),
      vector.construct_n ⟨0⟩ 1 (Except.ok 100) memory.empty = Except.ok (v, m1) ∧
      v.size = 1 ∧ v.capacity = 1 ∧ m1 v.begin = slot.indeterminate ∧
      v.get m1 0 ≠ some (element.value_initialized : Int) :=
  ⟨_, _, rfl, rfl, rfl, rfl, by decide⟩

/-! ## Construction with a fill value -/

theorem vector.construct_fill_eq {T : Type} (mr : resource_ref) (n : Nat) (x : T) (p : Nat)
    (m : memory T) :
    vector.construct_fill mr n x (Except.ok p) m = Except.ok
      ({ __buf_ := { resource := mr, size := n, data := p }, __size_ := n },
        uninitialized_fill_n p n x (memory.store_n p n slot.raw m)) := rfl

/-- C11: for every resource `mr`, size `n` and value `x`, when the resource
answers the request with storage at an address `p`, `vector(mr, n, x)` is
constructed with `size() == n`, `capacity() == n`, the resource `mr`, and
`v[i] == x` for every `i` in `[0, n)`. -/
theorem construct_fill_spec {T : Type} (mr : resource_ref) (n : Nat) (x : T) (p : Nat)
    (m : memory T) :
    ∃ v m1, vector.construct_fill mr n x (Except.ok p) m = Except.ok (v, m1) ∧
      v.size = n ∧ v.capacity = n ∧ v.resource = mr ∧
      ∀ i, i < n → v.get m1 i = some x := by
  refine ⟨_, _, vector.construct_fill_eq mr n x p m, rfl, rfl, rfl, ?_⟩
  intro i hi
  simp only [vector.get, uninitialized_fill_n]
  rw [memory.store_n_apply, if_pos (by omega)]
  rfl

/-! ## Clear and swap -/

/-- C12: for every vector, after `clear()` the size is 0, `empty()` is true,
and the capacity and the buffer held (resource, extent and address) are the
ones held before the call. -/
theorem clear_spec {T : Type} [element T] (v : vector) (m : memory T) :
    (v.clear m).1.size = 0 ∧ (v.clear m).1.empty = true ∧
      (v.clear m).1.capacity = v.capacity ∧ (v.clear m).1.__buf_ = v.__buf_ :=
  ⟨rfl, rfl, rfl, rfl⟩

/-- C13: for all vectors `a` and `b`, after `a.swap(b)` the size, the capacity,
the buffer and hence every element of `a` are the ones `b` had and vice versa.
The memory is neither an argument nor a result of `swap`: no element is
constructed, assigned or destroyed, and in every memory `m` an index reads
through `a` what it read through `b` before. -/
theorem swap_spec (a b : vector) :
    ((a.swap b).1.size = b.size ∧ (a.swap b).1.capacity = b.capacity ∧
      (a.swap b).1.__buf_ = b.__buf_) ∧
    ((a.swap b).2.size = a.size ∧ (a.swap b).2.capacity = a.capacity ∧
      (a.swap b).2.__buf_ = a.__buf_) ∧
    ∀ (T : Type) (m : memory T) (i : Nat),
      (a.swap b).1.get m i = b.get m i ∧ (a.swap b).2.get m i = a.get m i :=
  ⟨⟨rfl, rfl, rfl⟩, ⟨rfl, rfl, rfl⟩, fun _ _ _ => ⟨rfl, rfl⟩⟩

/-! ## Capacity after a reallocation -/

/-- C14: for every vector with `size() <= capacity()` and every
`count > capacity()`, when the resource answers the request with storage at an
address `p`, `resize(count, value)` returns with `capacity() == count` and
`size() == count`. -/
theorem resize_beyond_capacity_exact {T : Type} [element T] (v : vector) (count : Nat)
    (value : T) (p : Nat) (m : memory T) (hwf : v.size ≤ v.capacity)
    (hc : v.capacity < count) :
    ∃ v1 m1, v.resize count value (Except.ok p) m = outcome.returned (v1, m1) ∧
      v1.capacity = count ∧ v1.size = count := by
  simp only [vector.size, vector.capacity] at hwf hc
  exact ⟨_, _, vector.resize_realloc_eq v count value p m (by omega) (by omega), rfl, rfl⟩

/-- The growth of `demo_v`, of capacity 3, to four elements. -/
theorem resize_beyond_capacity_exact_witness :
    (demo_v.size ≤ demo_v.capacity ∧ demo_v.capacity < 4) ∧
    ∃ v1 m1, demo_v.resize 4 (9 : Int) (Except.ok 300) demo_m = outcome.returned (v1, m1) ∧
      v1.capacity = 4 ∧ v1.size = 4 :=
  ⟨by decide, resize_beyond_capacity_exact demo_v 4 9 300 demo_m (by decide) (by decide)⟩

theorem vector.copy_assign_realloc_eq {T : Type} (self other : vector) (p : Nat)
    (m : memory T)
    (h : ¬ (self.resource = other.resource ∧ self.__buf_.size = other.__buf_.size)) :
    self.copy_assign other (Except.ok p) m = outcome.returned
      ({ self with
          __buf_ := { resource := other.__buf_.resource, size := other.__size_, data := p } },
        self.__buf_.release (__destroy self.begin self.end
          (uninitialized_copy other.begin other.end p
            (memory.store_n p other.__size_ slot.raw m)).2)) := by
  rw [vector.copy_assign, if_neg h]
  rfl

theorem vector.copy_assign_threw_eq {T : Type} (self other : vector) (e : bad_alloc)
    (m : memory T)
    (h : ¬ (self.resource = other.resource ∧ self.__buf_.size = other.__buf_.size)) :
    self.copy_assign other (Except.error e) m = outcome.threw e (self, m) := by
  rw [vector.copy_assign, if_neg h]
  rfl

/-- C15: for all vectors `a` and `b` whose resources differ or whose
capacities differ, when the resource answers the request with storage at an
address `p`, the copy assignment `b = a` returns with the capacity of `b`
equal to `a.size()` and the resource of `b` that of `a`. -/
theorem copy_assign_realloc_exact {T : Type} (a b : vector) (p : Nat) (m : memory T)
    (h : b.resource ≠ a.resource ∨ b.capacity ≠ a.capacity) :
    ∃ b1 m1, b.copy_assign a (Except.ok p) m = outcome.returned (b1, m1) ∧
      b1.capacity = a.size ∧ b1.resource = a.resource := by
  have h1 : ¬ (b.resource = a.resource ∧ b.__buf_.size = a.__buf_.size) := by
    rintro ⟨h2, h3⟩
    rcases h with h | h
    · exact h h2
    · exact h h3
  exact ⟨_, _, vector.copy_assign_realloc_eq b a p m h1, rfl, rfl⟩

/-- The copy assignment of `demo_v` (capacity 3) to `demo_w` (capacity 1). -/
theorem copy_assign_realloc_exact_witness :
    (demo_w.resource ≠ demo_v.resource ∨ demo_w.capacity ≠ demo_v.capacity) ∧
    ∃ b1 m1, demo_w.copy_assign demo_v (Except.ok 300) demo_m = outcome.returned (b1, m1) ∧
      b1.capacity = demo_v.size ∧ b1.resource = demo_v.resource :=
  ⟨by decide, copy_assign_realloc_exact demo_v demo_w 300 demo_m (by decide)⟩

/-! ## Allocation failure -/

/-- C16: the copy assignment `b = a` asks the resource for storage when the
resources or the capacities of `a` and `b` differ.  When the resource answers
with an allocation error `e`, that same error `e` leaves the assignment, and
at that point `b` and the whole memory are what they were: size, capacity and
every element of `b` are unchanged. -/
theorem copy_assign_alloc_failure {T : Type} (a b : vector) (e : bad_alloc) (m : memory T)
    (h : b.resource ≠ a.resource ∨ b.capacity ≠ a.capacity) :
    ∃ b1 m1, b.copy_assign a (Except.error e) m = outcome.threw e (b1, m1) ∧
      b1 = b ∧ m1 = m ∧ b1.size = b.size ∧ b1.capacity = b.capacity ∧
      ∀ i, b1.get m1 i = b.get m i := by
  have h1 : ¬ (b.resource = a.resource ∧ b.__buf_.size = a.__buf_.size) := by
    rintro ⟨h2, h3⟩
    rcases h with h | h
    · exact h h2
    · exact h h3
  exact ⟨_, _, vector.copy_assign_threw_eq b a e m h1, rfl, rfl, rfl, rfl, fun _ => rfl⟩

/-- The copy assignment of `demo_v` to `demo_w` with a resource that fails
with the error 12. -/
theorem copy_assign_alloc_failure_witness :
    (demo_w.resource ≠ demo_v.resource ∨ demo_w.capacity ≠ demo_v.capacity) ∧
    ∃ b1 m1, demo_w.copy_assign demo_v (Except.error ⟨12⟩) demo_m =
        outcome.threw ⟨12⟩ (b1, m1) ∧
      b1 = demo_w ∧ m1 = demo_m ∧ b1.size = demo_w.size ∧ b1.capacity = demo_w.capacity ∧
      ∀ i, b1.get m1 i = demo_w.get demo_m i :=
  ⟨by decide, copy_assign_alloc_failure demo_v demo_w ⟨12⟩ demo_m (by decide)⟩

/-- C17 (the code breaks it): `demo_v` has capacity 3 and `resize(5, 9)` needs
a new buffer.  When the resource answers with the allocation error 12, the
error does not reach the caller: `resize` is declared `noexcept`, and the call
ends in the termination of the program, not in the error 12 leaving it. -/
theorem resize_alloc_failure_terminates :
    demo_v.resize 5 (9 : Int) (Except.error ⟨12⟩) demo_m = outcome.terminated ∧
    ∀ s, demo_v.resize 5 (9 : Int) (Except.error ⟨12⟩) demo_m ≠ outcome.threw ⟨12⟩ s :=
  ⟨rfl, fun _ h => outcome.noConfusion h⟩

/-! ## Execution spaces -/

/-- C19: for every list `P` of property tags, `__select_execution_space<P>` is
`__host_device` exactly when `P` contains both `host_accessible` and
`device_accessible`, `__device` exactly when it contains `device_accessible`
and not `host_accessible`, and `__host` in every other case, that is exactly
when it does not contain `device_accessible`: with `host_accessible` alone,
with neither tag, with no tag at all. -/
theorem select_execution_space_spec (P : List property) :
    (__select_execution_space P = _ExecutionSpace.__host_device ↔
      property.host_accessible ∈ P ∧ property.device_accessible ∈ P) ∧
    (__select_execution_space P = _ExecutionSpace.__device ↔
      property.device_accessible ∈ P ∧ property.host_accessible ∉ P) ∧
    (__select_execution_space P = _ExecutionSpace.__host ↔
      property.device_accessible ∉ P) ∧
    __select_execution_space [] = _ExecutionSpace.__host := by
  by_cases hh : property.host_accessible ∈ P <;>
    by_cases hd : property.device_accessible ∈ P <;>
    simp [__select_execution_space, __is_host_device_accessible, __is_host_accessible,
      __is_device_accessible, _One_of, hh, hd]

/-- C20: each accessor (`operator*`, `operator->`, `operator[]`) of a
`heterogeneous_iterator` is available to host code exactly when the execution
space is `__host` or `__host_device`, and to device code exactly when it is
`__device` or `__host_device`.  The iterator of `device_vector` has the space
`__device`, and none of its accessors is available to host code. -/
theorem accessor_availability (space : _ExecutionSpace) (a : accessor) :
    (heterogeneous_iterator.available space a side.host = true ↔
      space = _ExecutionSpace.__host ∨ space = _ExecutionSpace.__host_device) ∧
    (heterogeneous_iterator.available space a side.device = true ↔
      space = _ExecutionSpace.__device ∨ space = _ExecutionSpace.__host_device) ∧
    vector.iterator_space device_vector.properties = _ExecutionSpace.__device ∧
    heterogeneous_iterator.available (vector.iterator_space device_vector.properties) a
      side.host = false ∧
    heterogeneous_iterator.available (vector.iterator_space device_vector.properties) a
      side.device = true := by
  cases space <;> cases a <;> decide

/-! ## Live cells -/

theorem slot.live_copied {T : Type} (s : slot T) : s.copied.live = true := by
  cases s <;> rfl

theorem element.default_slot_live (T : Type) [element T] :
    (element.default_slot T).live = true := by
  unfold element.default_slot
  cases element.default_initialized (T := T) <;> rfl

/-- The copy loop writes nothing outside its destination range. -/
theorem __copy_loop_outside {T : Type} (n : Nat) :
    ∀ (first result : Nat) (m : memory T) (q : Nat),
      (q < result ∨ result + n ≤ q) → (__copy_loop n first result m).2 q = m q := by
  induction n with
  | zero => intro first result m q _; rfl
  | succ k ih =>
      intro first result m q h
      rw [__copy_loop, ih (first + 1) (result + 1) _ q (by omega), memory.store_apply,
        if_neg (by omega)]

/-- Every cell of the destination range of the copy loop holds a live object
afterwards. -/
theorem __copy_loop_live {T : Type} (n : Nat) :
    ∀ (first result : Nat) (m : memory T) (q : Nat),
      result ≤ q → q < result + n → ((__copy_loop n first result m).2 q).live = true := by
  induction n with
  | zero => intro first result m q h1 h2; omega
  | succ k ih =>
      intro first result m q h1 h2
      rw [__copy_loop]
      by_cases h : q = result
      · rw [__copy_loop_outside k _ _ _ q (by omega), memory.store_apply, if_pos h]
        exact slot.live_copied _
      · exact ih _ _ _ q (by omega) (by omega)

theorem vector.construct_n_eq {T : Type} [element T] (mr : resource_ref) (n p : Nat)
    (m : memory T) :
    vector.construct_n mr n (Except.ok p) m = Except.ok
      ({ __buf_ := { resource := mr, size := n, data := p }, __size_ := n },
        uninitialized_default_construct_n p n (memory.store_n p n slot.raw m)) := rfl

/-- C21: for all heterogeneous iterators `x` and `y` of one type, `x == y`
holds if and only if their addresses are equal, and `x != y`, declared as an
operator or rewritten from `==`, is the negation of `x == y`. -/
theorem iterator_equality {T : Type} {is_const : Bool} {space : _ExecutionSpace}
    (x y : heterogeneous_iterator T is_const space) :
    (x.operator_eq y = true ↔ x.__ptr_ = y.__ptr_) ∧
    x.operator_ne y = !(x.operator_eq y) ∧
    x.rewritten_ne y = !(x.operator_eq y) := by
  refine ⟨?_, ?_, rfl⟩
  · simp [heterogeneous_iterator.operator_eq]
  · simp [heterogeneous_iterator.operator_eq, heterogeneous_iterator.operator_ne]

/-- C22: for all heterogeneous iterators `x` and `y` of one type, `<`, `<=`,
`>` and `>=`, declared as operators or rewritten from `<=>`, and `<=>` itself
give the result of comparing the addresses; exactly one of `x < y`, `x == y`
and `x > y` holds, and `x <= y` holds if and only if `x > y` does not. -/
theorem iterator_ordering {T : Type} {is_const : Bool} {space : _ExecutionSpace}
    (x y : heterogeneous_iterator T is_const space) :
    ((x.operator_lt y = true ↔ x.__ptr_ < y.__ptr_) ∧
      (x.operator_le y = true ↔ x.__ptr_ ≤ y.__ptr_) ∧
      (x.operator_gt y = true ↔ x.__ptr_ > y.__ptr_) ∧
      (x.operator_ge y = true ↔ x.__ptr_ ≥ y.__ptr_)) ∧
    (x.operator_spaceship y = compare x.__ptr_ y.__ptr_ ∧
      x.rewritten_lt y = x.operator_lt y ∧ x.rewritten_le y = x.operator_le y ∧
      x.rewritten_gt y = x.operator_gt y ∧ x.rewritten_ge y = x.operator_ge y) ∧
    ((x.operator_lt y = true ∧ x.operator_eq y = false ∧ x.operator_gt y = false) ∨
      (x.operator_lt y = false ∧ x.operator_eq y = true ∧ x.operator_gt y = false) ∨
      (x.operator_lt y = false ∧ x.operator_eq y = false ∧ x.operator_gt y = true)) ∧
    (x.operator_le y = true ↔ ¬ x.operator_gt y = true) := by
  refine ⟨⟨?_, ?_, ?_, ?_⟩, ?_, ?_, ?_⟩
  · simp [heterogeneous_iterator.operator_lt]
  · simp [heterogeneous_iterator.operator_le]
  · simp [heterogeneous_iterator.operator_gt]
  · simp [heterogeneous_iterator.operator_ge]
  · simp only [heterogeneous_iterator.rewritten_lt, heterogeneous_iterator.rewritten_le,
      heterogeneous_iterator.rewritten_gt, heterogeneous_iterator.rewritten_ge,
      heterogeneous_iterator.operator_spaceship, heterogeneous_iterator.operator_lt,
      heterogeneous_iterator.operator_le, heterogeneous_iterator.operator_gt,
      heterogeneous_iterator.operator_ge]
    rcases lt_trichotomy x.__ptr_ y.__ptr_ with h | h | h
    · rw [compare_lt_iff_lt.mpr h]
      have h1 : x.__ptr_ ≤ y.__ptr_ := by omega
      have h2 : ¬ x.__ptr_ > y.__ptr_ := by omega
      have h3 : ¬ x.__ptr_ ≥ y.__ptr_ := by omega
      simp [h, h1, h2, h3]
    · rw [compare_eq_iff_eq.mpr h]
      simp [h]
    · rw [compare_gt_iff_gt.mpr h]
      have h1 : ¬ x.__ptr_ ≤ y.__ptr_ := by omega
      have h2 : ¬ x.__ptr_ < y.__ptr_ := by omega
      have h3 : x.__ptr_ ≥ y.__ptr_ := by omega
      simp [h, h1, h2, h3]
  · simp only [heterogeneous_iterator.operator_lt, heterogeneous_iterator.operator_eq,
      heterogeneous_iterator.operator_gt, decide_eq_true_eq, decide_eq_false_iff_not]
    omega
  · simp only [heterogeneous_iterator.operator_le, heterogeneous_iterator.operator_gt,
      decide_eq_true_eq]
    omega

/-- C23: a default-constructed heterogeneous iterator holds the null address,
for every element type, const-ness and execution space, and any two
default-constructed iterators of one type compare equal. -/
theorem default_iterator_is_null (T : Type) (is_const : Bool) (space : _ExecutionSpace) :
    (heterogeneous_iterator.construct_default :
        heterogeneous_iterator T is_const space).__ptr_ = 0 ∧
    (heterogeneous_iterator.construct_default :
        heterogeneous_iterator T is_const space).operator_eq
      heterogeneous_iterator.construct_default = true :=
  ⟨rfl, rfl⟩

/-- C24: for every address `p`, const-ness and execution space,
`pointer_traits<heterogeneous_iterator>::to_address` of the iterator
constructed from `p` is `p`; the function carries the same marker for the
three execution spaces and is available to host code and to device code. -/
theorem to_address_of_constructed (T : Type) (is_const : Bool) (space : _ExecutionSpace)
    (p : Int) :
    pointer_traits.to_address
      (heterogeneous_iterator.construct p : heterogeneous_iterator T is_const space) = p ∧
    (pointer_traits.to_address_target space).allows side.host = true ∧
    (pointer_traits.to_address_target space).allows side.device = true :=
  ⟨rfl, rfl, rfl⟩

/-! ## The iterator of `repeat_view` -/

/-- A result within the range of an integer type is the value it takes. -/
theorem index_type.wrap_of_mem (t : index_type) (x : Int) (h1 : t.lowest ≤ x)
    (h2 : x ≤ t.highest) : t.wrap x = x := by
  unfold index_type.wrap
  rw [Int.emod_eq_of_lt (by omega) (by omega)]
  omega

/-- C27: for every `repeat_view` iterator at a position `k` such that `k + 1`
is a value of the index type, post-increment returns an iterator at position
`k` (the iterator as it was) and leaves the iterator at `k + 1`, and
pre-increment returns the iterator itself at `k + 1`.  For
`repeat_view<int> rv(10)` and `iter = rv.begin()`: `iter++ == rv.begin()`, and
then `++iter == rv.begin() + 2`. -/
theorem repeat_iterator_increment {T : Type} {B : bound_type}
    (it : repeat_view.__iterator T B) (h1 : B._IndexT.lowest ≤ it.__current_ + 1)
    (h2 : it.__current_ + 1 ≤ B._IndexT.highest) :
    (it.post_increment.1 = it ∧ it.post_increment.1.operator_eq it = true ∧
      it.post_increment.2.__current_ = it.__current_ + 1 ∧
      it.post_increment.2.__value_ = it.__value_) ∧
    (it.pre_increment.__current_ = it.__current_ + 1 ∧
      it.pre_increment.__value_ = it.__value_) ∧
    (demo_rv.begin.post_increment.1.operator_eq demo_rv.begin = true ∧
      ∃ b2, demo_rv.begin.operator_add 2 = some b2 ∧
        demo_rv.begin.post_increment.2.pre_increment.operator_eq b2 = true) := by
  have h : B._IndexT.wrap (it.__current_ + 1) = it.__current_ + 1 :=
    index_type.wrap_of_mem _ _ h1 h2
  refine ⟨⟨rfl, ?_, h, rfl⟩, ⟨h, rfl⟩, ?_, ?_⟩
  · simp [repeat_view.__iterator.operator_eq, repeat_view.__iterator.post_increment]
  · decide
  · exact ⟨_, rfl, by decide⟩

/-- The increment of `rv.begin()` for `repeat_view<int> rv(10)`. -/
theorem repeat_iterator_increment_witness :
    ((bound_type.unreachable_sentinel_t)._IndexT.lowest ≤ demo_rv.begin.__current_ + 1 ∧
      demo_rv.begin.__current_ + 1 ≤ (bound_type.unreachable_sentinel_t)._IndexT.highest) ∧
    ((demo_rv.begin.post_increment.1 = demo_rv.begin ∧
        demo_rv.begin.post_increment.1.operator_eq demo_rv.begin = true ∧
        demo_rv.begin.post_increment.2.__current_ = demo_rv.begin.__current_ + 1 ∧
        demo_rv.begin.post_increment.2.__value_ = demo_rv.begin.__value_) ∧
      (demo_rv.begin.pre_increment.__current_ = demo_rv.begin.__current_ + 1 ∧
        demo_rv.begin.pre_increment.__value_ = demo_rv.begin.__value_) ∧
      (demo_rv.begin.post_increment.1.operator_eq demo_rv.begin = true ∧
        ∃ b2, demo_rv.begin.operator_add 2 = some b2 ∧
          demo_rv.begin.post_increment.2.pre_increment.operator_eq b2 = true)) :=
  ⟨by decide, repeat_iterator_increment demo_rv.begin (by decide) (by decide)⟩

/-- C28: for every `repeat_view` iterator at a position `k` such that `k - 1`
is a value of the index type, with `k > 0` when the view is bounded,
post-decrement returns an iterator at position `k` (the iterator as it was)
and leaves the iterator at `k - 1`, and pre-decrement returns the iterator
itself at `k - 1`.  For `repeat_view<int> rv(10)` and
`iter = rv.begin() + 10`: `iter-- == rv.begin() + 10`, and then
`--iter == rv.begin() + 8`. -/
theorem repeat_iterator_decrement {T : Type} {B : bound_type}
    (it : repeat_view.__iterator T B) (h1 : B._IndexT.lowest ≤ it.__current_ - 1)
    (h2 : it.__current_ - 1 ≤ B._IndexT.highest)
    (h3 : B.is_bounded = true → it.__current_ > 0) :
    (∃ r, it.post_decrement = some r ∧ r.1 = it ∧ r.1.operator_eq it = true ∧
      r.2.__current_ = it.__current_ - 1 ∧ r.2.__value_ = it.__value_) ∧
    (∃ r, it.pre_decrement = some r ∧ r.__current_ = it.__current_ - 1 ∧
      r.__value_ = it.__value_) ∧
    (∃ i10 r i8 b8, demo_rv.begin.operator_add 10 = some i10 ∧
      i10.post_decrement = some r ∧ r.1.operator_eq i10 = true ∧
      r.2.pre_decrement = some i8 ∧ demo_rv.begin.operator_add 8 = some b8 ∧
      i8.operator_eq b8 = true) := by
  have h : B._IndexT.wrap (it.__current_ - 1) = it.__current_ - 1 :=
    index_type.wrap_of_mem _ _ h1 h2
  have hg : ¬ (B.is_bounded = true ∧ ¬ it.__current_ > 0) := by
    rintro ⟨hb, hn⟩
    exact hn (h3 hb)
  have hpre : it.pre_decrement = some { it with __current_ := it.__current_ - 1 } := by
    rw [repeat_view.__iterator.pre_decrement, if_neg hg, h]
  refine ⟨⟨(it, { it with __current_ := it.__current_ - 1 }), ?_, rfl, ?_, rfl, rfl⟩,
    ⟨_, hpre, rfl, rfl⟩, ?_⟩
  · rw [repeat_view.__iterator.post_decrement, hpre]
  · simp [repeat_view.__iterator.operator_eq]
  · exact ⟨_, _, _, _, rfl, rfl, by decide, rfl, rfl, by decide⟩

/-- The decrement of `rv.begin() + 10` for `repeat_view<int> rv(10)`. -/
theorem repeat_iterator_decrement_witness :
    ∃ i10, demo_rv.begin.operator_add 10 = some i10 ∧
      ((bound_type.unreachable_sentinel_t)._IndexT.lowest ≤ i10.__current_ - 1 ∧
        i10.__current_ - 1 ≤ (bound_type.unreachable_sentinel_t)._IndexT.highest ∧
        ((bound_type.unreachable_sentinel_t).is_bounded = true → i10.__current_ > 0)) ∧
      (∃ r, i10.post_decrement = some r ∧ r.1 = i10 ∧ r.1.operator_eq i10 = true ∧
        r.2.__current_ = i10.__current_ - 1 ∧ r.2.__value_ = i10.__value_) ∧
      (∃ r, i10.pre_decrement = some r ∧ r.__current_ = i10.__current_ - 1 ∧
        r.__value_ = i10.__value_) :=
  ⟨_, rfl, by decide,
    (repeat_iterator_decrement
      ({ __value_ := some 10, __current_ := 10 } :
        repeat_view.__iterator Int bound_type.unreachable_sentinel_t)
      (by decide) (by decide) (by decide)).1,
    (repeat_iterator_decrement
      ({ __value_ := some 10, __current_ := 10 } :
        repeat_view.__iterator Int bound_type.unreachable_sentinel_t)
      (by decide) (by decide) (by decide)).2.1⟩

/-! ## Reallocation and the address of `begin()` -/

/-- C26: let `v` be a vector with `size() <= capacity()`, and let the resource
answer the request of `v.resize(v.capacity() + 1, x)` with storage at an
address `p` that does not overlap the buffer held and, when that buffer is
empty, is not its address.  Then `resize` returns, `v.begin()` is `p`
afterwards, and the address held by an iterator `it = v.begin()` taken before
the call differs from it: `it` and the new `v.begin()` do not compare equal. -/
theorem resize_relocates_begin {T : Type} [element T] {is_const : Bool}
    {space : _ExecutionSpace} (v : vector) (x : T) (p : Nat) (m : memory T)
    (hwf : v.size ≤ v.capacity)
    (hsep : separate p (v.capacity + 1) v.begin v.capacity)
    (hempty : v.capacity = 0 → p ≠ v.begin) :
    ∃ v1 m1, v.resize (v.capacity + 1) x (Except.ok p) m = outcome.returned (v1, m1) ∧
      v1.begin = p ∧
      pointer_traits.to_address
        (v.begin_iterator : heterogeneous_iterator T is_const space) ≠ (v1.begin : Int) ∧
      (v.begin_iterator : heterogeneous_iterator T is_const space).operator_eq
        v1.begin_iterator = false := by
  simp only [vector.size, vector.capacity, vector.begin, separate] at hwf hsep hempty ⊢
  have hne : v.__buf_.data ≠ p := by
    by_cases h0 : v.__buf_.size = 0
    · exact fun h => hempty h0 h.symm
    · omega
  have hne1 : (v.__buf_.data : Int) ≠ (p : Int) := by
    intro h
    exact hne (Int.ofNat.inj h)
  refine ⟨_, _, vector.resize_realloc_eq v _ x p m (by omega) (by omega), rfl, ?_, ?_⟩
  · exact hne1
  · simp only [heterogeneous_iterator.operator_eq, vector.begin_iterator,
      heterogeneous_iterator.construct, vector.begin, decide_eq_false_iff_not]
    exact hne1

/-- The growth of `demo_v`, held at address 100 with capacity 3, to four
elements in storage at address 300. -/
theorem resize_relocates_begin_witness :
    (demo_v.size ≤ demo_v.capacity ∧ separate 300 (demo_v.capacity + 1) demo_v.begin
        demo_v.capacity ∧ (demo_v.capacity = 0 → 300 ≠ demo_v.begin)) ∧
    ∃ v1 m1, demo_v.resize (demo_v.capacity + 1) (9 : Int) (Except.ok 300) demo_m =
        outcome.returned (v1, m1) ∧
      v1.begin = 300 ∧
      pointer_traits.to_address
        (demo_v.begin_iterator :
          heterogeneous_iterator Int false _ExecutionSpace.__host) ≠ (v1.begin : Int) ∧
      (demo_v.begin_iterator :
          heterogeneous_iterator Int false _ExecutionSpace.__host).operator_eq
        v1.begin_iterator = false :=
  ⟨by decide, resize_relocates_begin demo_v 9 300 demo_m (by decide) (by decide) (by decide)⟩

/-- C29 (the code breaks it): `demo_v` has size 2 and capacity 3, so
`count == 3` satisfies `size() <= count <= capacity()`.  `resize(3, 9)` tests
`count < capacity`, which fails, and takes the reallocating branch: it
obtains a new buffer from the resource (at the address 300 the resource
answers with) and gives up the buffer held at 100; with a resource that
fails, the call terminates although the buffer held has room. -/
theorem resize_to_capacity_reallocates :
    (demo_v.size ≤ 3 ∧ 3 ≤ demo_v.capacity) ∧
    (∃ v1 m1, demo_v.resize 3 (9 : Int) (Except.ok 300) demo_m = outcome.returned (v1, m1) ∧
      v1.begin = 300 ∧ v1.begin ≠ demo_v.begin ∧ v1.__buf_ ≠ demo_v.__buf_ ∧
      m1 demo_v.begin = slot.raw) ∧
    demo_v.resize 3 (9 : Int) (Except.error ⟨12⟩) demo_m = outcome.terminated :=
  ⟨by decide, ⟨_, _, rfl, rfl, by decide, by decide, rfl⟩, rfl⟩

/-! ## Copy assignment in place -/

/-- C30: for all vectors `a` and `b` with the same resource and equal
capacities (each with `size() <= capacity()`, their buffers not overlapping),
the copy assignment `b = a` returns whatever the resource would answer, with
the buffer and capacity of `b` unchanged.  It runs `copy` (assignment) over
the first `min(b.size(), a.size())` elements, then `__destroy` on the
elements of `b` from `a.size()` to the old size of `b` when `b` was not
smaller, or `uninitialized_copy` (construction) of the elements of `a` at
`[b.size(), a.size())` when it was; it writes nothing else. -/
theorem copy_assign_in_place {T : Type} (a b : vector) (reply : Except bad_alloc Nat)
    (m : memory T) (hres : b.resource = a.resource) (hcap : b.capacity = a.capacity)
    (ha : a.size ≤ a.capacity) (hb : b.size ≤ b.capacity)
    (hsep : separate a.begin a.capacity b.begin b.capacity) :
    ∃ b1 m1, b.copy_assign a reply m = outcome.returned (b1, m1) ∧
      b1.__buf_ = b.__buf_ ∧ b1.capacity = b.capacity ∧
      m1 = (if a.size ≤ b.size then
            __destroy (b.begin + a.size) b.end (copy a.begin a.end b.begin m).2
          else
            (uninitialized_copy (a.begin + b.size) a.end (b.begin + b.size)
              (copy a.begin (a.begin + b.size) b.begin m).2).2) ∧
      (∀ i, i < min b.size a.size → m1 (b.begin + i) = (m (a.begin + i)).copied) ∧
      (a.size ≤ b.size → ∀ i, a.size ≤ i → i < b.size → m1 (b.begin + i) = slot.raw) ∧
      (b.size < a.size → ∀ i, b.size ≤ i → i < a.size →
        m1 (b.begin + i) = (m (a.begin + i)).copied) ∧
      (∀ q, (q < b.begin ∨ b.begin + max b.size a.size ≤ q) → m1 q = m q) := by
  simp only [vector.size, vector.capacity, vector.begin, separate] at ha hb hsep hcap
  have hcond : b.resource = a.resource ∧ b.__buf_.size = a.__buf_.size := ⟨hres, hcap⟩
  by_cases hge : b.__size_ ≥ a.__size_
  · have hov : b.__buf_.data ≤ a.__buf_.data ∨
        a.__buf_.data + (a.__buf_.data + a.__size_ - a.__buf_.data) ≤ b.__buf_.data := by
      omega
    have hfst : (copy a.begin a.end b.begin m).1 = b.begin + a.size := by
      simp only [copy, __copy, __copy_loop_fst, vector.begin, vector.end, vector.size]
      omega
    have heq : b.copy_assign a reply m = outcome.returned
        (b, __destroy (b.begin + a.size) b.end (copy a.begin a.end b.begin m).2) := by
      rw [vector.copy_assign, if_pos hcond, if_pos hge]
      simp only [hfst]
    have hle : a.size ≤ b.size := hge
    refine ⟨_, _, heq, rfl, rfl, by rw [if_pos hle], ?_, ?_, ?_, ?_⟩
    · intro i hi
      simp only [vector.size] at hi
      simp only [__destroy, copy, __copy, vector.begin, vector.end, vector.size]
      rw [memory.store_n_apply, if_neg (by omega), __copy_loop_apply _ _ _ _ _ hov,
        if_pos (by omega)]
      congr 2
      omega
    · intro _ i hi1 hi2
      simp only [vector.size] at hi1 hi2
      simp only [__destroy, copy, __copy, vector.begin, vector.end, vector.size]
      rw [memory.store_n_apply, if_pos (by omega)]
    · intro hlt
      simp only [vector.size] at hlt
      omega
    · intro q hq
      simp only [vector.size, vector.begin] at hq
      simp only [__destroy, copy, __copy, vector.begin, vector.end, vector.size]
      rw [memory.store_n_apply, if_neg (by omega), __copy_loop_apply _ _ _ _ _ hov,
        if_neg (by omega)]
  · have hov1 : b.__buf_.data ≤ a.__buf_.data ∨
        a.__buf_.data + (a.__buf_.data + b.__size_ - a.__buf_.data) ≤ b.__buf_.data := by
      omega
    have hov2 : b.__buf_.data + b.__size_ ≤ a.__buf_.data + b.__size_ ∨
        a.__buf_.data + b.__size_ +
          (a.__buf_.data + a.__size_ - (a.__buf_.data + b.__size_)) ≤
            b.__buf_.data + b.__size_ := by
      omega
    have hfst : (copy a.begin (a.begin + b.__size_) b.begin m).1 = b.begin + b.size := by
      simp only [copy, __copy, __copy_loop_fst, vector.begin, vector.size]
      omega
    have heq : b.copy_assign a reply m = outcome.returned
        (b, (uninitialized_copy (a.begin + b.size) a.end (b.begin + b.size)
          (copy a.begin (a.begin + b.size) b.begin m).2).2) := by
      rw [vector.copy_assign, if_pos hcond, if_neg hge]
      simp only [hfst, vector.size]
    have hnle : ¬ a.size ≤ b.size := by
      simp only [vector.size]
      omega
    refine ⟨_, _, heq, rfl, rfl, by rw [if_neg hnle], ?_, ?_, ?_, ?_⟩
    · intro i hi
      simp only [vector.size] at hi
      simp only [uninitialized_copy, copy, __copy, vector.begin, vector.end, vector.size]
      rw [__copy_loop_apply _ _ _ _ _ hov2, if_neg (by omega),
        __copy_loop_apply _ _ _ _ _ hov1, if_pos (by omega)]
      congr 2
      omega
    · intro hle
      simp only [vector.size] at hle
      omega
    · intro _ i hi1 hi2
      simp only [vector.size] at hi1 hi2
      simp only [uninitialized_copy, copy, __copy, vector.begin, vector.end, vector.size]
      rw [__copy_loop_apply _ _ _ _ _ hov2, if_pos (by omega),
        __copy_loop_apply _ _ _ _ _ hov1, if_neg (by omega)]
      congr 2
      omega
    · intro q hq
      simp only [vector.size, vector.begin] at hq
      simp only [uninitialized_copy, copy, __copy, vector.begin, vector.end, vector.size]
      rw [__copy_loop_apply _ _ _ _ _ hov2, if_neg (by omega),
        __copy_loop_apply _ _ _ _ _ hov1, if_neg (by omega)]

/-- The copy assignment of `demo_v` (two elements) to `demo_u` (three
elements), both of capacity 3 and of the same resource, with a resource that
would fail. -/
theorem copy_assign_in_place_witness :
    (demo_u.resource = demo_v.resource ∧ demo_u.capacity = demo_v.capacity ∧
      demo_v.size ≤ demo_v.capacity ∧ demo_u.size ≤ demo_u.capacity ∧
      separate demo_v.begin demo_v.capacity demo_u.begin demo_u.capacity) ∧
    ∃ b1 m1, demo_u.copy_assign demo_v (Except.error ⟨12⟩) demo_m =
        outcome.returned (b1, m1) ∧
      b1.__buf_ = demo_u.__buf_ ∧ b1.capacity = demo_u.capacity ∧
      m1 = (if demo_v.size ≤ demo_u.size then
            __destroy (demo_u.begin + demo_v.size) demo_u.end
              (copy demo_v.begin demo_v.end demo_u.begin demo_m).2
          else
            (uninitialized_copy (demo_v.begin + demo_u.size) demo_v.end
              (demo_u.begin + demo_u.size)
              (copy demo_v.begin (demo_v.begin + demo_u.size) demo_u.begin demo_m).2).2) ∧
      (∀ i, i < min demo_u.size demo_v.size →
        m1 (demo_u.begin + i) = (demo_m (demo_v.begin + i)).copied) ∧
      (demo_v.size ≤ demo_u.size → ∀ i, demo_v.size ≤ i → i < demo_u.size →
        m1 (demo_u.begin + i) = slot.raw) ∧
      (demo_u.size < demo_v.size → ∀ i, demo_u.size ≤ i → i < demo_v.size →
        m1 (demo_u.begin + i) = (demo_m (demo_v.begin + i)).copied) ∧
      (∀ q, (q < demo_u.begin ∨ demo_u.begin + max demo_u.size demo_v.size ≤ q) →
        m1 q = demo_m q) :=
  ⟨by decide, copy_assign_in_place demo_v demo_u (Except.error ⟨12⟩) demo_m (by decide)
    (by decide) (by decide) (by decide) (by decide)⟩

/-! ## Cells after a reallocating resize and after a copy construction -/

/-- The cells after a `resize` that obtains a new buffer at `p`: the old
elements are relocated, the new ones hold `value`, and nothing changes outside
the new storage and the buffer given up. -/
theorem vector.resize_realloc_cells {T : Type} [element T] (v : vector) (n : Nat)
    (value : T) (p : Nat) (m : memory T) (h1 : ¬ n < v.__size_) (h2 : ¬ n < v.__buf_.size)
    (hwf : v.__size_ ≤ v.__buf_.size)
    (hsep : v.__buf_.size = 0 ∨ p + n ≤ v.__buf_.data ∨ v.__buf_.data + v.__buf_.size ≤ p) :
    ∃ m1, v.resize n value (Except.ok p) m = outcome.returned
        ({ __buf_ := { resource := v.__buf_.resource, size := n, data := p }, __size_ := n },
          m1) ∧
      (∀ i, i < v.__size_ → m1 (p + i) = (m (v.__buf_.data + i)).copied) ∧
      (∀ i, v.__size_ ≤ i → i < n → m1 (p + i) = slot.object value) ∧
      (∀ q, (q < p ∨ p + n ≤ q) →
        (q < v.__buf_.data ∨ v.__buf_.data + v.__buf_.size ≤ q) → m1 q = m q) := by
  have hov : p ≤ v.__buf_.data ∨
      v.__buf_.data + (v.__buf_.data + v.__size_ - v.__buf_.data) ≤ p := by
    omega
  refine ⟨_, vector.resize_realloc_eq v n value p m h1 h2, ?_, ?_, ?_⟩
  · intro i hi
    simp only [uninitialized_buffer.release, uninitialized_move, uninitialized_fill_n,
      vector.begin, vector.end]
    rw [memory.store_n_apply, if_neg (by omega), __copy_loop_apply _ _ _ _ _ hov,
      if_pos (by omega), memory.store_n_apply, if_neg (by omega), memory.store_n_apply,
      if_neg (by omega)]
    congr 2
    omega
  · intro i hi1 hi2
    simp only [uninitialized_buffer.release, uninitialized_move, uninitialized_fill_n,
      vector.begin, vector.end]
    rw [memory.store_n_apply, if_neg (by omega), __copy_loop_apply _ _ _ _ _ hov,
      if_neg (by omega), memory.store_n_apply, if_pos (by omega)]
  · intro q hq1 hq2
    simp only [uninitialized_buffer.release, uninitialized_move, uninitialized_fill_n,
      vector.begin, vector.end]
    rw [memory.store_n_apply, if_neg (by omega), __copy_loop_apply _ _ _ _ _ hov,
      if_neg (by omega), memory.store_n_apply, if_neg (by omega), memory.store_n_apply,
      if_neg (by omega)]

/-- The cells after a copy construction into storage at `p`: the elements are
copies, and nothing changes outside the new storage. -/
theorem vector.copy_construct_cells {T : Type} (a : vector) (p : Nat) (m : memory T)
    (hwf : a.__size_ ≤ a.__buf_.size)
    (hsep : p + a.__size_ ≤ a.__buf_.data ∨ a.__buf_.data + a.__buf_.size ≤ p) :
    ∃ m1, a.copy_construct (Except.ok p) m = Except.ok
        ({ __buf_ := { resource := a.__buf_.resource, size := a.__size_, data := p },
           __size_ := a.__size_ }, m1) ∧
      (∀ i, i < a.__size_ → m1 (p + i) = (m (a.__buf_.data + i)).copied) ∧
      (∀ q, (q < p ∨ p + a.__size_ ≤ q) → m1 q = m q) := by
  have hov : p ≤ a.__buf_.data ∨
      a.__buf_.data + (a.__buf_.data + a.__size_ - a.__buf_.data) ≤ p := by
    omega
  refine ⟨_, vector.copy_construct_eq a p m, ?_, ?_⟩
  · intro i hi
    simp only [uninitialized_copy, vector.begin, vector.end]
    rw [__copy_loop_apply _ _ _ _ _ hov, if_pos (by omega), memory.store_n_apply,
      if_neg (by omega)]
    congr 2
    omega
  · intro q hq
    simp only [uninitialized_copy, vector.begin, vector.end]
    rw [__copy_loop_apply _ _ _ _ _ hov, if_neg (by omega), memory.store_n_apply,
      if_neg (by omega)]

/-- The cells after a shrinking `resize`: nothing changes outside the
elements given up. -/
theorem vector.resize_shrink_cells {T : Type} [element T] (v : vector) (n : Nat) (value : T)
    (reply : Except bad_alloc Nat) (m : memory T) (h : n < v.__size_) :
    ∃ m1, v.resize n value reply m = outcome.returned ({ v with __size_ := n }, m1) ∧
      (∀ q, (q < v.__buf_.data + n ∨ v.__buf_.data + v.__size_ ≤ q) → m1 q = m q) := by
  refine ⟨_, vector.resize_shrink_eq v n value reply m h, ?_⟩
  intro q hq
  simp only [__destroy, vector.begin, vector.end]
  split_ifs
  · rw [memory.store_n_apply, if_neg (by omega)]
  · rfl

/-! ## The scenario of the specification -/

/-- C25: start from `v = vector<int>(R, 0)`; then `v.resize(5, 7)`,
`v.resize(3)`, `w` copy-constructed from `v`, and `v.resize(10, 9)`, the
resource answering each request with storage that overlaps no buffer held.
All calls return, and at the end `w.size() == 3` with `w[i] == 7` for
`i < 3`, and `v.size() == 10` with `v[i] == 7` for `i < 3` and `v[i] == 9`
for `i` in `[3, 10)`. -/
theorem scenario_resize_copy_resize (R : resource_ref) (p0 p1 p2 p3 : Nat)
    (r : Except bad_alloc Nat) (m : memory Int)
    (h12 : separate p2 3 p1 5) (h13 : separate p3 10 p1 5) (h23 : separate p3 10 p2 3) :
    ∃ v0 m0 v1 m1 v2 m2 w m3 v4 m4,
      vector.construct_n R 0 (Except.ok p0) m = Except.ok (v0, m0) ∧
      v0.resize 5 (7 : Int) (Except.ok p1) m0 = outcome.returned (v1, m1) ∧
      v1.resize 3 (element.value_initialized : Int) r m1 = outcome.returned (v2, m2) ∧
      v2.copy_construct (Except.ok p2) m2 = Except.ok (w, m3) ∧
      v2.resize 10 (9 : Int) (Except.ok p3) m3 = outcome.returned (v4, m4) ∧
      w.size = 3 ∧ (∀ i, i < 3 → w.get m4 i = some 7) ∧
      v4.size = 10 ∧ (∀ i, i < 3 → v4.get m4 i = some 7) ∧
      (∀ i, 3 ≤ i → i < 10 → v4.get m4 i = some 9) := by
  unfold separate at h12 h13 h23
  have e0 := vector.construct_n_eq (T := Int) R 0 p0 m
  obtain ⟨m1, e1, -, c1b, -⟩ := vector.resize_realloc_cells
    ({ __buf_ := { resource := R, size := 0, data := p0 }, __size_ := 0 } : vector) 5 (7 : Int)
    p1 (uninitialized_default_construct_n p0 0 (memory.store_n p0 0 slot.raw m))
    (by simp) (by simp) (le_refl _) (Or.inl rfl)
  obtain ⟨m2, e2, c2⟩ := vector.resize_shrink_cells
    ({ __buf_ := { resource := R, size := 5, data := p1 }, __size_ := 5 } : vector) 3
    (element.value_initialized : Int) r m1 (by simp)
  obtain ⟨m3, e3, c3a, c3b⟩ := vector.copy_construct_cells
    ({ __buf_ := { resource := R, size := 5, data := p1 }, __size_ := 3 } : vector) p2 m2
    (by simp) (by dsimp only; omega)
  obtain ⟨m4, e4, c4a, c4b, c4c⟩ := vector.resize_realloc_cells
    ({ __buf_ := { resource := R, size := 5, data := p1 }, __size_ := 3 } : vector) 10
    (9 : Int) p3 m3 (by simp) (by simp) (by simp) (by dsimp only; omega)
  dsimp only at c1b c2 c3a c3b c4a c4b c4c
  refine ⟨_, _, _, _, _, _, _, _, _, _, e0, e1, e2, e3, e4, rfl, ?_, rfl, ?_, ?_⟩
  · intro i hi
    simp only [vector.get]
    rw [c4c _ (by omega) (by omega), c3a i hi, c2 _ (by omega), c1b i (by omega) (by omega)]
    rfl
  · intro i hi
    simp only [vector.get]
    rw [c4a i hi, c3b _ (by omega), c2 _ (by omega), c1b i (by omega) (by omega)]
    rfl
  · intro i hi1 hi2
    simp only [vector.get]
    rw [c4b i hi1 hi2]
    rfl

/-- The scenario with the storage handed out at the addresses 0, 100, 200 and
300. -/
theorem scenario_resize_copy_resize_witness :
    (separate 200 3 100 5 ∧ separate 300 10 100 5 ∧ separate 300 10 200 3) ∧
    ∃ v0 m0 v1 m1 v2 m2 w m3 v4 m4,
      vector.construct_n ⟨0⟩ 0 (Except.ok 0) memory.empty = Except.ok (v0, m0) ∧
      v0.resize 5 (7 : Int) (Except.ok 100) m0 = outcome.returned (v1, m1) ∧
      v1.resize 3 (element.value_initialized : Int) (Except.error ⟨0⟩) m1 =
        outcome.returned (v2, m2) ∧
      v2.copy_construct (Except.ok 200) m2 = Except.ok (w, m3) ∧
      v2.resize 10 (9 : Int) (Except.ok 300) m3 = outcome.returned (v4, m4) ∧
      w.size = 3 ∧ (∀ i, i < 3 → w.get m4 i = some 7) ∧
      v4.size = 10 ∧ (∀ i, i < 3 → v4.get m4 i = some 7) ∧
      (∀ i, 3 ≤ i → i < 10 → v4.get m4 i = some 9) :=
  ⟨by decide, scenario_resize_copy_resize ⟨0⟩ 0 100 200 300 (Except.error ⟨0⟩) memory.empty
    (by decide) (by decide) (by decide)⟩

/-! ## Arithmetic of the iterator -/

/-- C31: for every iterator `it` at address `p` and every difference `n`, the
iterators `it + n`, `n + it` and `it += n` are the iterator at address
`p + n`, `it - n` and `it -= n` are the iterator at `p - n`, and
`(it + n) - it` is `n`; the address is the only member, so nothing else
changes. -/
theorem iterator_offset_arithmetic {T : Type} {is_const : Bool} {space : _ExecutionSpace}
    (it : heterogeneous_iterator T is_const space) (n : Int) :
    it.operator_add n = heterogeneous_iterator.construct (it.__ptr_ + n) ∧
    heterogeneous_iterator.operator_add_left n it =
      heterogeneous_iterator.construct (it.__ptr_ + n) ∧
    it.operator_add_assign n = heterogeneous_iterator.construct (it.__ptr_ + n) ∧
    it.operator_sub n = heterogeneous_iterator.construct (it.__ptr_ - n) ∧
    it.operator_sub_assign n = heterogeneous_iterator.construct (it.__ptr_ - n) ∧
    pointer_traits.to_address (it.operator_add n) = pointer_traits.to_address it + n ∧
    pointer_traits.to_address (it.operator_sub n) = pointer_traits.to_address it - n ∧
    (it.operator_add n).operator_difference it = n := by
  refine ⟨rfl, rfl, rfl, rfl, rfl, rfl, rfl, ?_⟩
  simp only [heterogeneous_iterator.operator_difference, heterogeneous_iterator.operator_add,
    heterogeneous_iterator.operator_add_assign]
  omega

/-! ## The constructor without initialisation -/

/-- C32: for every resource `mr` and size `n`, the constructor
`vector(mr, n, uninitialized_construction)`, when the resource provides the
storage, yields `size() == n` and `capacity() == n`, and the condition of its
assertion, `n <= __buf_.size()`, is true; when the resource fails, the error
leaves the constructor before its body. -/
theorem construct_uninitialized_assertion_holds {T : Type} (mr : resource_ref) (n : Nat)
    (m : memory T) :
    (∀ p, ∃ v m1, vector.construct_uninitialized mr n (Except.ok p) m = Except.ok (v, m1) ∧
      v.size = n ∧ v.capacity = n ∧ v.resource = mr ∧
      v.construct_uninitialized_assertion n = true) ∧
    (∀ e, vector.construct_uninitialized mr n (Except.error e) m = Except.error e) := by
  refine ⟨fun p => ⟨_, _, rfl, rfl, rfl, rfl, ?_⟩, fun e => rfl⟩
  simp [vector.construct_uninitialized_assertion]

/-! ## Self copy assignment -/

/-- C34: for every vector `v`, the self copy assignment `v = v` returns
whatever the resource would answer (none is asked for), on the in-place path:
`copy(begin(), end(), begin())` and `__destroy` of the empty range at
`end()`.  The vector, so its size, capacity and buffer, is as before, every
element reads as before, every cell that held an object is as before, and no
cell outside `[begin(), end())` is written. -/
theorem self_copy_assign_unchanged {T : Type} (v : vector) (reply : Except bad_alloc Nat)
    (m : memory T) :
    ∃ v1 m1, v.copy_assign v reply m = outcome.returned (v1, m1) ∧
      m1 = __destroy v.end v.end (copy v.begin v.end v.begin m).2 ∧
      v1 = v ∧ v1.size = v.size ∧ v1.capacity = v.capacity ∧
      (∀ i, v1.get m1 i = v.get m i) ∧
      (∀ q, (m q).live = true → m1 q = m q) ∧
      (∀ q, (q < v.begin ∨ v.end ≤ q) → m1 q = m q) := by
  have hov : v.begin ≤ v.begin ∨ v.begin + (v.end - v.begin) ≤ v.begin := Or.inl (le_refl _)
  have hfst : (copy v.begin v.end v.begin m).1 = v.end := by
    simp only [copy, __copy, __copy_loop_fst, vector.begin, vector.end]
    omega
  have heq : v.copy_assign v reply m = outcome.returned
      (v, __destroy v.end v.end (copy v.begin v.end v.begin m).2) := by
    rw [vector.copy_assign, if_pos ⟨rfl, rfl⟩, if_pos (le_refl _)]
    simp only [hfst]
  have hcell : ∀ q, (__destroy v.end v.end (copy v.begin v.end v.begin m).2) q =
      if v.begin ≤ q ∧ q < v.end then (m q).copied else m q := by
    intro q
    simp only [__destroy, copy, __copy]
    rw [memory.store_n_apply, if_neg (by omega), __copy_loop_apply _ _ _ _ _ hov]
    by_cases h : v.begin ≤ q ∧ q < v.end
    · rw [if_pos (by omega), if_pos h]
      congr 2
      omega
    · rw [if_neg (by omega), if_neg h]
  refine ⟨_, _, heq, rfl, rfl, rfl, rfl, ?_, ?_, ?_⟩
  · intro i
    simp only [vector.get]
    rw [hcell]
    split
    · exact slot.value_copied _
    · rfl
  · intro q hq
    rw [hcell]
    split
    · cases hs : m q with
      | raw => rw [hs] at hq; simp [slot.live] at hq
      | indeterminate => rfl
      | object x => rfl
    · rfl
  · intro q hq
    rw [hcell, if_neg (by omega)]

/-! ## The algorithm `copy` -/

/-- C35: for every source range `[first, last)` with `first <= last`, of
`n = last - first` elements, and every destination `[result, result + n)`
that does not overlap it, `copy(first, last, result)` returns `result + n`,
leaves in `result[i]` the copy of what `first[i]` held, for every `i < n`,
leaves the source as it was, so `result[i]` reads as `first[i]`, and writes
no cell outside `[result, result + n)`. -/
theorem copy_disjoint_spec {T : Type} (first last result : Nat) (m : memory T)
    (hle : first ≤ last) (hsep : separate first (last - first) result (last - first)) :
    (copy first last result m).1 = result + (last - first) ∧
    (∀ i, i < last - first →
      (copy first last result m).2 (result + i) = (m (first + i)).copied) ∧
    (∀ i, i < last - first → (copy first last result m).2 (first + i) = m (first + i)) ∧
    (∀ i, i < last - first →
      ((copy first last result m).2 (result + i)).value =
        ((copy first last result m).2 (first + i)).value) ∧
    (∀ q, (q < result ∨ result + (last - first) ≤ q) →
      (copy first last result m).2 q = m q) := by
  simp only [separate] at hsep
  have hov : result ≤ first ∨ first + (last - first) ≤ result := by omega
  have hcell : ∀ q, (copy first last result m).2 q =
      if result ≤ q ∧ q < result + (last - first) then (m (first + (q - result))).copied
      else m q := by
    intro q
    simp only [copy, __copy]
    rw [__copy_loop_apply _ _ _ _ _ hov]
  have h1 : ∀ i, i < last - first →
      (copy first last result m).2 (result + i) = (m (first + i)).copied := by
    intro i hi
    rw [hcell, if_pos (by omega)]
    congr 2
    omega
  have h2 : ∀ i, i < last - first → (copy first last result m).2 (first + i) = m (first + i) := by
    intro i hi
    rw [hcell, if_neg (by omega)]
  refine ⟨?_, h1, h2, ?_, ?_⟩
  · simp only [copy, __copy, __copy_loop_fst]
  · intro i hi
    rw [h1 i hi, h2 i hi, slot.value_copied]
  · intro q hq
    rw [hcell, if_neg (by omega)]

/-- The copy of the four elements at 10 to 13 to the addresses 20 to 23. -/
theorem copy_disjoint_spec_witness :
    (10 ≤ 14 ∧ separate 10 (14 - 10) 20 (14 - 10)) ∧
    ((copy 10 14 20 demo_c).1 = 20 + (14 - 10) ∧
    (∀ i, i < 14 - 10 → (copy 10 14 20 demo_c).2 (20 + i) = (demo_c (10 + i)).copied) ∧
    (∀ i, i < 14 - 10 → (copy 10 14 20 demo_c).2 (10 + i) = demo_c (10 + i)) ∧
    (∀ i, i < 14 - 10 →
      ((copy 10 14 20 demo_c).2 (20 + i)).value = ((copy 10 14 20 demo_c).2 (10 + i)).value) ∧
    (∀ q, (q < 20 ∨ 20 + (14 - 10) ≤ q) → (copy 10 14 20 demo_c).2 q = demo_c q)) :=
  ⟨by decide, copy_disjoint_spec 10 14 20 demo_c (by decide) (by decide)⟩

/-! ## Dereference, end and size of `repeat_view` -/

/-- C38: for every `repeat_view` constructed from a value `x` (with any bound
the constructor accepts) and every offset `n >= 0`, `begin() + n` passes the
assertion of `operator+=` and `*(begin() + n)` is `x`, and `begin()[n]` is
`x`. -/
theorem repeat_view_deref_any_offset {T : Type} {B : bound_type} (x : T) (b : Int)
    (rv : repeat_view T B) (n : Int) (hc : repeat_view.construct x b = some rv)
    (hn : 0 ≤ n) :
    (∃ it, rv.begin.operator_add n = some it ∧ it.operator_deref = some x) ∧
    rv.begin.operator_subscript n = some x := by
  have hx : rv.__value_ = x := by
    unfold repeat_view.construct at hc
    split at hc
    · exact absurd hc (by simp)
    · injection hc with h
      rw [← h]
  have hadd : rv.begin.operator_add n = some
      { __value_ := some x,
        __current_ := B._IndexT.wrap (0 + B._IndexT.wrap n) } := by
    simp only [repeat_view.__iterator.operator_add, repeat_view.__iterator.operator_add_assign,
      repeat_view.begin]
    rw [if_neg (by intro h; omega), hx]
  refine ⟨⟨_, hadd, rfl⟩, ?_⟩
  simp only [repeat_view.__iterator.operator_subscript, hadd]
  rfl

/-- The view of the tests, `repeat_view<int> rv(10)`, read at the offset 5. -/
theorem repeat_view_deref_any_offset_witness :
    (repeat_view.construct 10 0 = some demo_rv ∧ (0 : Int) ≤ 5) ∧
    ((∃ it, demo_rv.begin.operator_add 5 = some it ∧ it.operator_deref = some 10) ∧
    demo_rv.begin.operator_subscript 5 = some 10) :=
  ⟨by decide, repeat_view_deref_any_offset 10 0 demo_rv 5 (by decide) (by decide)⟩

/-- A value taken into an integer type that is not empty is at most the
highest value of the type. -/
theorem index_type.wrap_le (t : index_type) (x : Int) (h : t.lowest ≤ t.highest) :
    t.wrap x ≤ t.highest := by
  unfold index_type.wrap
  have := Int.emod_lt_of_pos (x - t.lowest) (show (0 : Int) < t.highest - t.lowest + 1 by omega)
  omega

theorem memmove_apply {T : Type} (result first n : Nat) (m : memory T) (q : Nat) :
    (memmove result first n m) q =
      if result ≤ q ∧ q < result + n then (m (first + (q - result))).copied else m q :=
  rfl

/-- The backward loop copies every element from its old value when the
destination does not start before the source, or lies wholly before it. -/
theorem __copy_backward_loop_apply {T : Type} (n : Nat) :
    ∀ (first result : Nat) (m : memory T) (q : Nat),
      (first ≤ result ∨ result + n ≤ first) →
      (__copy_backward_loop n first result m) q =
        if result ≤ q ∧ q < result + n then (m (first + (q - result))).copied else m q := by
  induction n with
  | zero =>
      intro first result m q _
      rw [__copy_backward_loop, if_neg (by omega)]
  | succ k ih =>
      intro first result m q h
      rw [__copy_backward_loop, ih first result _ q (by omega)]
      by_cases hq : result ≤ q ∧ q < result + k
      · rw [if_pos hq, if_pos (by omega), memory.store_apply, if_neg (by omega)]
      · rw [if_neg hq, memory.store_apply]
        by_cases hk : q = result + k
        · rw [if_pos hk, if_pos (by omega)]
          congr 2
          omega
        · rw [if_neg hk, if_neg (by omega)]

/-- The forward loop of the pointer overload is the generic loop started at
the index reached. -/
theorem __copy_forward_loop_eq {T : Type} (k : Nat) :
    ∀ (i first result : Nat) (m : memory T),
      __copy_forward_loop k i first result m = (__copy_loop k (first + i) (result + i) m).2 := by
  induction k with
  | zero => intro i first result m; rfl
  | succ j ih =>
      intro i first result m
      rw [__copy_forward_loop, __copy_loop, ih (i + 1) first result]
      rfl

/-- The forward loop copies every element from its old value when the
destination does not start after the source, or lies wholly after it. -/
theorem __copy_forward_loop_apply {T : Type} (n first result : Nat) (m : memory T) (q : Nat)
    (h : result ≤ first ∨ first + n ≤ result) :
    (__copy_forward_loop n 0 first result m) q =
      if result ≤ q ∧ q < result + n then (m (first + (q - result))).copied else m q := by
  rw [__copy_forward_loop_eq]
  exact __copy_loop_apply n (first + 0) (result + 0) m q h

/-- The fallback answers `true` only for a needle that is not before `first`. -/
theorem __constexpr_tail_overlap_fallback_loop_true (k : Nat) :
    ∀ (first needle : Nat),
      __constexpr_tail_overlap_fallback_loop k first needle = true → first ≤ needle := by
  induction k with
  | zero =>
      intro first needle h
      simp [__constexpr_tail_overlap_fallback_loop] at h
  | succ j ih =>
      intro first needle h
      rw [__constexpr_tail_overlap_fallback_loop] at h
      by_cases he : first = needle
      · omega
      · rw [if_neg he] at h
        have := ih (first + 1) needle h
        omega

/-- The overlap test answers `true` only for a needle that is not before
`first`, whatever the compiler and the target. -/
theorem __constexpr_tail_overlap_true (c : call_context) (first needle last : Nat)
    (h : __constexpr_tail_overlap c first needle last = true) : first ≤ needle := by
  unfold __constexpr_tail_overlap at h
  have hf : __constexpr_tail_overlap_fallback first needle last = true → first ≤ needle :=
    __constexpr_tail_overlap_fallback_loop_true _ first needle
  split at h
  · split at h
    · simp only [Bool.and_eq_true, decide_eq_true_eq] at h
      omega
    · exact hf h
  · exact hf h

/-- The cells after the pointer overload of `__copy` on a range that is not
empty, at run time or on ranges where the destination is not inside the
source after its start: every destination cell holds the copy of what its
source cell held before the call, and no other cell is written. -/
theorem __copy.pointer_overload_apply {T : Type} (c : call_context)
    (first last result : Nat) (m : memory T) (hn : first < last)
    (h : c.constant_evaluated = false ∨ result ≤ first ∨ first + (last - first) ≤ result)
    (q : Nat) :
    (__copy.pointer_overload c first last result m).2 q =
      if result ≤ q ∧ q < result + (last - first) then (m (first + (q - result))).copied
      else m q := by
  have hpos : ((last : Int) - (first : Int)) > 0 := by omega
  have htn : ((last : Int) - (first : Int)).toNat = last - first := by omega
  unfold __copy.pointer_overload
  simp only [hpos, if_true, htn]
  by_cases hd : (__dispatch_memmove c result first (last - first) m).1 = true
  · rw [if_pos hd]
    have hmem : (__dispatch_memmove c result first (last - first) m).2 =
        memmove result first (last - first) m := by
      unfold __dispatch_memmove at hd ⊢
      split
      · rename_i hg
        rw [if_pos hg] at hd
        simp at hd
      · rename_i hg
        rw [if_neg hg] at hd
        split
        · rename_i he
          rw [if_pos he] at hd
          simp at hd
        · rename_i he
          rw [if_neg he] at hd
          cases hs : c.runs_on with
          | host => rfl
          | device =>
              rw [hs] at hd
              simp at hd
    show (__dispatch_memmove c result first (last - first) m).2 q = _
    rw [hmem, memmove_apply]
  · rw [if_neg hd]
    by_cases hb : ((!c.constant_evaluated && decide (first < result))
        || __constexpr_tail_overlap c first result last) = true
    · rw [if_pos hb]
      have hle : first ≤ result := by
        rw [Bool.or_eq_true] at hb
        rcases hb with hb | hb
        · simp only [Bool.and_eq_true, decide_eq_true_eq] at hb
          omega
        · exact __constexpr_tail_overlap_true c first result last hb
      exact __copy_backward_loop_apply _ first result m q (Or.inl hle)
    · rw [if_neg hb]
      have hov : result ≤ first ∨ first + (last - first) ≤ result := by
        rcases h with h | h
        · rw [Bool.or_eq_true, not_or] at hb
          have hb1 := hb.1
          rw [h] at hb1
          simp only [Bool.not_false, Bool.true_and, decide_eq_true_eq] at hb1
          omega
        · exact h
      exact __copy_forward_loop_apply _ first result m q hov

/-- The pair the pointer overload of `__copy` returns. -/
theorem __copy.pointer_overload_fst {T : Type} (c : call_context)
    (first last result : Nat) (m : memory T) :
    (__copy.pointer_overload c first last result m).1 =
      (last, (result : Int) + ((last : Int) - (first : Int))) := by
  unfold __copy.pointer_overload
  simp only
  split
  · split
    · rfl
    · split
      · rfl
      · rfl
  · rfl

/-- C36: for every call of the pointer overload of `__copy` at run time, with
any compiler and on either target, with `n = last - first > 0` and any
`result`, also inside the source range: the call returns
`(last, result + n)`, `result[i]` holds the copy of what `first[i]` held
before the call, for every `i < n`, and no cell outside `[result, result + n)`
is written, whether `memmove`, the backward loop or the forward loop ran. -/
theorem pointer_copy_has_memmove_semantics {T : Type} (c : call_context)
    (first last result : Nat) (m : memory T) (hrun : c.constant_evaluated = false)
    (hn : first < last) :
    (__copy.pointer_overload c first last result m).1 =
      (last, (result : Int) + ((last : Int) - (first : Int))) ∧
    (∀ i, i < last - first →
      (__copy.pointer_overload c first last result m).2 (result + i) =
        (m (first + i)).copied) ∧
    (∀ i, i < last - first →
      ((__copy.pointer_overload c first last result m).2 (result + i)).value =
        (m (first + i)).value) ∧
    (∀ q, (q < result ∨ result + (last - first) ≤ q) →
      (__copy.pointer_overload c first last result m).2 q = m q) ∧
    (__copy.pointer_overload c first last result m).2 = memmove result first (last - first) m := by
  have hcell := __copy.pointer_overload_apply c first last result m hn (Or.inl hrun)
  have h1 : ∀ i, i < last - first →
      (__copy.pointer_overload c first last result m).2 (result + i) =
        (m (first + i)).copied := by
    intro i hi
    rw [hcell, if_pos (by omega)]
    congr 2
    omega
  refine ⟨__copy.pointer_overload_fst c first last result m, h1, ?_, ?_, ?_⟩
  · intro i hi
    rw [h1 i hi, slot.value_copied]
  · intro q hq
    rw [hcell, if_neg (by omega)]
  · funext q
    rw [hcell, memmove_apply]

/-- The copy on the device of the elements at 10, 11, 12 to the addresses 11,
12, 13, inside the source range: the backward loop runs. -/
theorem pointer_copy_has_memmove_semantics_witness :
    (demo_device.constant_evaluated = false ∧ 10 < 13) ∧
    ((__copy.pointer_overload demo_device 10 13 11 demo_c).1 =
      (13, ((11 : Nat) : Int) + (((13 : Nat) : Int) - ((10 : Nat) : Int))) ∧
    (∀ i, i < 13 - 10 →
      (__copy.pointer_overload demo_device 10 13 11 demo_c).2 (11 + i) =
        (demo_c (10 + i)).copied) ∧
    (∀ i, i < 13 - 10 →
      ((__copy.pointer_overload demo_device 10 13 11 demo_c).2 (11 + i)).value =
        (demo_c (10 + i)).value) ∧
    (∀ q, (q < 11 ∨ 11 + (13 - 10) ≤ q) →
      (__copy.pointer_overload demo_device 10 13 11 demo_c).2 q = demo_c q) ∧
    (__copy.pointer_overload demo_device 10 13 11 demo_c).2 = memmove 11 10 (13 - 10) demo_c) :=
  ⟨by decide, pointer_copy_has_memmove_semantics demo_device 10 13 11 demo_c (by decide)
    (by decide)⟩

/-- C37: for non-overlapping ranges with `first <= last`, the pointer
overload of `__copy`, with any compiler, on either target, at run time or
during constant evaluation, and the generic loop of `__copy` leave the same
memory and return the same pair `(last, result + (last - first))`; for
`first == last` both leave the memory as it was and return `(last, result)`. -/
theorem pointer_copy_refines_generic_copy {T : Type} (c : call_context)
    (first last result : Nat) (m : memory T) (hle : first ≤ last)
    (hsep : separate first (last - first) result (last - first)) :
    (__copy.pointer_overload c first last result m).2 = (__copy first last result m).2 ∧
    (__copy first last result m).1 = (last, result + (last - first)) ∧
    (__copy.pointer_overload c first last result m).1 =
      (last, ((result + (last - first) : Nat) : Int)) ∧
    (first = last →
      (__copy.pointer_overload c first last result m).2 = m ∧
      (__copy first last result m).2 = m ∧
      (__copy.pointer_overload c first last result m).1 = (last, (result : Int)) ∧
      (__copy first last result m).1 = (last, result)) := by
  simp only [separate] at hsep
  have hov : result ≤ first ∨ first + (last - first) ≤ result := by omega
  have hfst : (__copy.pointer_overload c first last result m).1 =
      (last, ((result + (last - first) : Nat) : Int)) := by
    rw [__copy.pointer_overload_fst]
    congr 1
    omega
  have hzero : first = last → (__copy.pointer_overload c first last result m).2 = m := by
    intro he
    unfold __copy.pointer_overload
    simp only
    rw [if_neg (by omega)]
  have hgen : (__copy first last result m).1 = (last, result + (last - first)) := by
    simp only [__copy, __copy_loop_fst]
  refine ⟨?_, hgen, hfst, ?_⟩
  · rcases Nat.eq_or_lt_of_le hle with he | hlt
    · rw [hzero he]
      simp only [__copy, he, Nat.sub_self, __copy_loop]
    · funext q
      rw [__copy.pointer_overload_apply c first last result m hlt (Or.inr hov) q]
      simp only [__copy]
      rw [__copy_loop_apply _ _ _ _ _ hov]
  · intro he
    refine ⟨hzero he, ?_, ?_, ?_⟩
    · simp only [__copy, he, Nat.sub_self, __copy_loop]
    · rw [hfst, he]
      simp
    · rw [hgen, he]
      simp

/-- The copy on the host of the elements at 10 to 13 to the addresses 20 to
23. -/
theorem pointer_copy_refines_generic_copy_witness :
    (10 ≤ 14 ∧ separate 10 (14 - 10) 20 (14 - 10)) ∧
    ((__copy.pointer_overload demo_host 10 14 20 demo_c).2 = (__copy 10 14 20 demo_c).2 ∧
    (__copy 10 14 20 demo_c).1 = (14, 20 + (14 - 10)) ∧
    (__copy.pointer_overload demo_host 10 14 20 demo_c).1 =
      (14, ((20 + (14 - 10) : Nat) : Int)) ∧
    (10 = 14 →
      (__copy.pointer_overload demo_host 10 14 20 demo_c).2 = demo_c ∧
      (__copy 10 14 20 demo_c).2 = demo_c ∧
      (__copy.pointer_overload demo_host 10 14 20 demo_c).1 = (14, ((20 : Nat) : Int)) ∧
      (__copy 10 14 20 demo_c).1 = (14, 20))) :=
  ⟨by decide, pointer_copy_refines_generic_copy demo_host 10 14 20 demo_c (by decide)
    (by decide)⟩

/-! ## The cells `resize` writes -/

/-- C33: for every vector with `size() <= capacity()` and every `count` (the
resource providing storage when it is asked), `resize(count, value)` returns,
and every cell it changes is an element of a buffer at an index below the
capacity of that buffer: when `count < size()` an index in `[count, size())`
of the held buffer (the elements destroyed), when
`size() <= count < capacity()` an index in `[size(), count)` of the held
buffer (the elements constructed), and when `capacity() <= count` an index
below `count` in the new buffer of `count` elements (the elements constructed
and moved into) or an index below `capacity()` in the buffer released. -/
theorem resize_writes_within_capacity {T : Type} [element T] (v : vector) (count : Nat)
    (value : T) (reply : Except bad_alloc Nat) (m : memory T) (hwf : v.size ≤ v.capacity)
    (halloc : v.capacity ≤ count → ∃ p, reply = Except.ok p) :
    ∃ v1 m1, v.resize count value reply m = outcome.returned (v1, m1) ∧
      ∀ q, m1 q ≠ m q →
        (count < v.size →
          v.begin + count ≤ q ∧ q < v.begin + v.size ∧ q - v.begin < v.capacity) ∧
        (v.size ≤ count → count < v.capacity →
          v.begin + v.size ≤ q ∧ q < v.begin + count ∧ q - v.begin < v.capacity) ∧
        (v.capacity ≤ count → v1.capacity = count ∧
          ((v1.begin ≤ q ∧ q - v1.begin < count) ∨
            (v.begin ≤ q ∧ q - v.begin < v.capacity))) := by
  simp only [vector.size, vector.capacity, vector.begin] at hwf halloc ⊢
  by_cases h1 : count < v.__size_
  · refine ⟨_, _, vector.resize_shrink_eq v count value reply m h1, ?_⟩
    intro q hq
    refine ⟨fun _ => ?_, fun h => by omega, fun h => by omega⟩
    by_cases hr : v.__buf_.data + count ≤ q ∧ q < v.__buf_.data + v.__size_
    · omega
    · exfalso
      apply hq
      split
      · simp only [__destroy, vector.begin, vector.end]
        rw [memory.store_n_apply, if_neg (by omega)]
      · rfl
  · by_cases h2 : count < v.__buf_.size
    · refine ⟨_, _, vector.resize_inplace_eq v count value reply m h1 h2, ?_⟩
      intro q hq
      refine ⟨fun h => by omega, fun _ _ => ?_, fun h => by omega⟩
      by_cases hr : v.__buf_.data + v.__size_ ≤ q ∧ q < v.__buf_.data + count
      · omega
      · exfalso
        apply hq
        simp only [uninitialized_fill_n, vector.end]
        rw [memory.store_n_apply, if_neg (by omega)]
    · obtain ⟨p, hp⟩ := halloc (by omega)
      rw [hp]
      refine ⟨_, _, vector.resize_realloc_eq v count value p m h1 h2, ?_⟩
      intro q hq
      refine ⟨fun h => by omega, fun _ h => by omega, fun _ => ⟨rfl, ?_⟩⟩
      by_cases hr : (p ≤ q ∧ q < p + count) ∨
          (v.__buf_.data ≤ q ∧ q < v.__buf_.data + v.__buf_.size)
      · rcases hr with hr | hr
        · left
          constructor
          · show p ≤ q
            omega
          · show q - p < count
            omega
        · right
          omega
      · exfalso
        apply hq
        simp only [uninitialized_buffer.release, uninitialized_move, uninitialized_fill_n,
          vector.begin, vector.end]
        rw [memory.store_n_apply, if_neg (by omega),
          __copy_loop_outside _ _ _ _ q (by omega), memory.store_n_apply, if_neg (by omega),
          memory.store_n_apply, if_neg (by omega)]

/-- The resize of `demo_v` (two elements, capacity 3) to five elements, with
new storage at address 400. -/
theorem resize_writes_within_capacity_witness :
    (demo_v.size ≤ demo_v.capacity ∧
      (demo_v.capacity ≤ 5 → ∃ p, (Except.ok 400 : Except bad_alloc Nat) = Except.ok p)) ∧
    ∃ v1 m1, demo_v.resize 5 (9 : Int) (Except.ok 400) demo_m = outcome.returned (v1, m1) ∧
      ∀ q, m1 q ≠ demo_m q →
        (5 < demo_v.size →
          demo_v.begin + 5 ≤ q ∧ q < demo_v.begin + demo_v.size ∧
            q - demo_v.begin < demo_v.capacity) ∧
        (demo_v.size ≤ 5 → 5 < demo_v.capacity →
          demo_v.begin + demo_v.size ≤ q ∧ q < demo_v.begin + 5 ∧
            q - demo_v.begin < demo_v.capacity) ∧
        (demo_v.capacity ≤ 5 → v1.capacity = 5 ∧
          ((v1.begin ≤ q ∧ q - v1.begin < 5) ∨
            (demo_v.begin ≤ q ∧ q - demo_v.begin < demo_v.capacity))) :=
  ⟨⟨by decide, fun _ => ⟨400, rfl⟩⟩,
    resize_writes_within_capacity demo_v 5 9 (Except.ok 400) demo_m (by decide)
      (fun _ => ⟨400, rfl⟩)⟩

end cudax
